/-
Verification of the radproc repository's filtering and melting-layer
pipeline against its natural-language specification.

The development shallowly embeds the two source files:
  * src/src/radproc/filtering.py  (pandas/numpy filtering utilities)
  * src/scripts/dev.py            (melting-layer indicator pipeline)

Modelling conventions:
  * pandas DataFrames are embedded as `Frame (Option ℚ)`: a shape
    (`nr` rows = range bins, `nc` columns = rays) together with a total
    cell function; `none` models NaN (a missing value).
  * pandas Panels are embedded as association lists from field-name
    strings to frames; item assignment is replace-or-append.
  * Python exceptions (KeyError on a missing dict/panel key or an
    unknown configuration key, IndexError on positional access past the
    end) are embedded with `Except RadErr`.
  * scipy.ndimage.median_filter is embedded concretely as a rank filter
    (rank = window-size / 2) over a window whose offsets along an axis
    of size `s` run from `-(s / 2)` to `s - s / 2 - 1`, with the
    default boundary mode "reflect"; this matches scipy's documented
    behaviour for the NaN-free inputs the repository feeds it.
-/
import Mathlib

set_option autoImplicit false

namespace Radproc

/-- A 2D pandas frame: `nr` rows, `nc` columns, and a total cell
function (queries outside the shape are never observed by the model). -/
structure Frame (α : Type) where
  nr : Nat
  nc : Nat
  cell : Nat → Nat → α

/-- A DataFrame of floats: `none` is NaN. -/
abbrev DF := Frame (Option ℚ)

/-- A boolean DataFrame. -/
abbrev BF := Frame Bool

/-- Errors raised by the embedded Python code: `configurationError` for
an unknown key in a per-field-type configuration table, `keyError` for
a missing panel field, `indexError` for positional access out of range. -/
inductive RadErr where
  | configurationError (key : String)
  | keyError (key : String)
  | indexError
  deriving DecidableEq

/-- Python `str.upper()` on the ASCII field names used throughout the
repository: character-wise upper-casing. -/
def pyUpper (s : String) : String := String.mk (s.data.map Char.toUpper)

/-- Python `str.lower()`: character-wise lower-casing. -/
def pyLower (s : String) : String := String.mk (s.data.map Char.toLower)

/-- Python `fieldname[-len(sfx):] == sfx`: suffix test. -/
def pyEndsWith (s sfx : String) : Bool := sfx.data.isSuffixOf s.data

/-- The literal 3.5 (ZDR ground-clutter threshold), written in reduced
`num/den` form so that the kernel can evaluate comparisons with it (see
`rat35_eq` below). -/
def rat35 : ℚ := ⟨7, 2, by decide, by decide⟩

/-- The literal 0.22 (KDP ground-clutter threshold) in reduced form. -/
def rat022 : ℚ := ⟨11, 50, by decide, by decide⟩

/-- The literal 0.8 (rho limit of `fltr_nonmet`) in reduced form. -/
def rat08 : ℚ := ⟨4, 5, by decide, by decide⟩

/-- `df.isnull()`: boolean frame marking the missing cells. -/
def isnull (g : DF) : BF :=
  ⟨g.nr, g.nc, fun i j => (g.cell i j).isNone⟩

/-- `df.fillna(v)`: replace every missing cell by `v`. -/
def fillna (g : DF) (v : ℚ) : DF :=
  ⟨g.nr, g.nc, fun i j => some ((g.cell i j).getD v)⟩

/-- `result[result.isnull()] = v`: same cell-wise effect as `fillna`,
written separately to mirror the second fill site in `median_filter_df`. -/
def fillNulls (g : DF) (v : ℚ) : DF :=
  ⟨g.nr, g.nc, fun i j => some ((g.cell i j).getD v)⟩

/-- `result[nullmask] = np.nan`: re-set to NaN every cell marked in the
(label-aligned) boolean frame `nm`; positions outside `nm` are untouched. -/
def setNoneWhere (g : DF) (nm : BF) : DF :=
  ⟨g.nr, g.nc, fun i j =>
    if i < nm.nr ∧ j < nm.nc ∧ nm.cell i j then none else g.cell i j⟩

/-- `df.iloc[:k]`: keep the first `k` rows. -/
def ilocHead {α : Type} (k : Nat) (g : Frame α) : Frame α :=
  ⟨min k g.nr, g.nc, g.cell⟩

/-- `df > thr`: strict cell-wise comparison; NaN compares `False`. -/
def gtThresh (g : DF) (thr : ℚ) : BF :=
  ⟨g.nr, g.nc, fun i j =>
    match g.cell i j with
    | some v => decide (thr < v)
    | none => false⟩

/-- `sel.loc[:, colmask] = b`: overwrite whole columns selected by a
boolean row with the constant `b`. -/
def setColsWhere (s : BF) (colmask : Nat → Bool) (b : Bool) : BF :=
  ⟨s.nr, s.nc, fun i j => if colmask j then b else s.cell i j⟩

/-- `df[sel] = other[sel]`: where `sel` holds take the label-aligned cell
of `other` (NaN when `other` has no such label), elsewhere keep `df`. -/
def assignWhere (df : DF) (sel : BF) (other : DF) : DF :=
  ⟨df.nr, df.nc, fun i j =>
    if i < sel.nr ∧ j < sel.nc ∧ sel.cell i j then
      (if i < other.nr ∧ j < other.nc then other.cell i j else none)
    else df.cell i j⟩

/-- `df.mask(cond)`: set to NaN where the label-aligned `cond` holds. -/
def maskCond (g : DF) (cond : BF) : DF :=
  ⟨g.nr, g.nc, fun i j =>
    if i < cond.nr ∧ j < cond.nc ∧ cond.cell i j then none else g.cell i j⟩

/-- scipy boundary mode "reflect" `(d c b a | a b c d | d c b a)`:
map an arbitrary integer index into `[0, n)`. -/
def reflectIdx (n : Nat) (z : Int) : Nat :=
  if n = 0 then 0
  else
    let m := (z % (2 * (n : Int))).toNat
    if m < n then m else 2 * n - 1 - m

/-- Insert into a list sorted by `r` (used by the embedded rank filter). -/
def insertOrd {α : Type} (r : α → α → Bool) (x : α) : List α → List α
  | [] => [x]
  | y :: ys => if r x y then x :: y :: ys else y :: insertOrd r x ys

/-- Insertion sort by `r`. -/
def sortBy {α : Type} (r : α → α → Bool) : List α → List α
  | [] => []
  | x :: xs => insertOrd r x (sortBy r xs)

/-- Order used to rank window values: NaN (`none`) sorts last. -/
def optLE : Option ℚ → Option ℚ → Bool
  | some a, some b => decide (a ≤ b)
  | some _, none => true
  | none, some _ => false
  | none, none => true

/-- The multiset of window values of `scipy.ndimage.median_filter` at
cell `(i, j)`: offsets `-(s / 2) .. s - s / 2 - 1` along each axis,
boundary mode "reflect". -/
def windowVals (size : Nat × Nat) (g : DF) (i j : Nat) : List (Option ℚ) :=
  (List.range size.1).flatMap fun d0 =>
    (List.range size.2).map fun d1 =>
      let r := reflectIdx g.nr ((i : Int) + (d0 : Int) - (size.1 / 2 : Nat))
      let c := reflectIdx g.nc ((j : Int) + (d1 : Int) - (size.2 / 2 : Nat))
      g.cell r c

/-- `scipy.ndimage.median_filter(arr, size=size)`: rank filter taking the
element of rank `size.1 * size.2 / 2` of each window. -/
def scipyMedianFilter (size : Nat × Nat) (g : DF) : DF :=
  ⟨g.nr, g.nc, fun i j =>
    (sortBy optLE (windowVals size g i j)).getD (size.1 * size.2 / 2) none⟩

/-- Modelled from the spec: the fill-value configuration table
`NAN_REPLACEMENT` lives in the radproc package `__init__`, which is not
under `src/`.  The spec fixes only that it is "a fixed per-field-type
configuration table" whose unknown keys fail with ConfigurationError;
the numeric fill values below are arbitrary concrete representatives
(no claim depends on the particular numbers). -/
def NAN_REPLACEMENT : List (String × ℚ) :=
  [("ZH", -32), ("ZDR", -1), ("KDP", 0), ("RHO", 0)]

/-- Panels are association lists from field names to frames. -/
abbrev Panel := List (String × DF)

/-- `pn[key] = v`: replace the binding of `key`, or append it. -/
def pset {α : Type} : List (String × α) → String → α → List (String × α)
  | [], k, v => [(k, v)]
  | (k0, v0) :: rest, k, v =>
    if k0 = k then (k0, v) :: rest else (k0, v0) :: pset rest k v

/-- `pn[key]` as an exception-raising lookup (KeyError when absent). -/
def plookup {α : Type} (pn : List (String × α)) (k : String) :
    Except RadErr α :=
  match pn.lookup k with
  | some v => pure v
  | none => throw (.keyError k)

/-- `median_filter_df(df, param, fill, nullmask, size=size)`
(filtering.py lines 120-136): fill NaN from the configuration table,
apply the scipy median filter, re-fill residual NaN, then re-set NaN at
the `nullmask` positions (the input's own null mask when the argument
is omitted, i.e. `none`). -/
def median_filter_df (df : DF) (param : Option String) (fill : Bool)
    (nullmaskArg : Option BF) (size : Nat × Nat) : Except RadErr DF := do
  let nullmask := nullmaskArg.getD (isnull df)
  let df_new ←
    match fill, param with
    | true, some p =>
      match NAN_REPLACEMENT.lookup (pyUpper p) with
      | some v => pure (fillna df v)
      | none => throw (.configurationError p)
    | _, _ => pure df
  let result := scipyMedianFilter size df_new
  let result ←
    match param with
    | some p =>
      match NAN_REPLACEMENT.lookup (pyUpper p) with
      | some v => pure (fillNulls result v)
      | none => throw (.configurationError p)
    | none => pure result
  pure (setNoneWhere result nullmask)

/-- `dict_keys_lower` (filtering.py lines 18-20). -/
def dict_keys_lower (d : List (String × ℚ)) : List String :=
  d.map fun kv => pyLower kv.1

/-- `create_filtered_fields_if_missing(pn, keys)` (filtering.py lines
23-35): for each upper-cased key, copy the upper-case field to its
lower-case name when the lower-case field is absent. -/
def create_filtered_fields_if_missing (pn : Panel) (keys : List String) :
    Except RadErr Panel :=
  (keys.map pyUpper).foldlM
    (fun acc key =>
      if (acc.lookup (pyLower key)).isSome then pure acc
      else do
        let v ← plookup acc key
        pure (pset acc (pyLower key) v))
    pn

/-- The masking condition `pn_out['rho'] < 0.8` of `fltr_nonmet`
(filtering.py line 76); NaN compares `False`. -/
def rhoCond (rho : DF) : BF :=
  ⟨rho.nr, rho.nc, fun i j =>
    match rho.cell i j with
    | some v => decide (v < 4/5)
    | none => false⟩

/-- `fltr_nonmet(pn, fields, rholim)` (filtering.py lines 73-79): mask
the lower-case copies of `fields` wherever the `rho` field is below the
constant 0.8 (see `rhoCond`).  Note the body never reads `rholim`. -/
def fltr_nonmet (pn : Panel) (fields : List String) (rholim : ℚ) :
    Except RadErr Panel := do
  let pn_out ← create_filtered_fields_if_missing pn fields
  let rho ← plookup pn_out "rho"
  fields.foldlM
    (fun acc field => do
      let cur ← plookup acc (pyLower field)
      pure (pset acc (pyLower field) (maskCond cur (rhoCond rho))))
    pn_out

/-- The `ground_threshold` table of `fltr_ground_clutter_median`
(filtering.py line 41): ZDR 3.5, KDP 0.22. -/
def ground_threshold : List (String × ℚ) :=
  [("ZDR", rat35), ("KDP", rat022)]

/-- The clutter-selection frame built by `fltr_ground_clutter_median`
(filtering.py lines 49-52) from the thresholded field `sel0`: whole
columns whose bin `cp` exceeds the threshold are cleared ("not
clutter"), whole columns whose (surviving) first bin is selected are
set, and all rows from `cp` on are cleared. -/
def gcmSelection (sel0 : BF) (cp : Nat) : BF :=
  let sel1 := setColsWhere sel0 (fun j => sel0.cell cp j) false
  let sel2 := setColsWhere sel1 (fun j => sel1.cell 0 j) true
  ⟨sel2.nr, sel2.nc, fun i j => if cp ≤ i then false else sel2.cell i j⟩

/-- The replacement-value frame of `fltr_ground_clutter_median`
(filtering.py lines 45-47): the first `hp` bins of the working copy,
filled with `w`, median-filtered, re-filled, and re-set to NaN at the
`zh` null mask (the body of `median_filter_df` with those arguments). -/
def gcmNewValues (hp : Nat) (g gzh : DF) (sz : Nat × Nat) (w : ℚ) : DF :=
  setNoneWhere (fillNulls (scipyMedianFilter sz (fillna (ilocHead hp g) w)) w)
    (isnull gzh)

/-- The body of the per-field loop of `fltr_ground_clutter_median`
(filtering.py lines 44-55), processing one lower-case field of the
accumulator panel. -/
def gcm_process_field (pn_orig : Panel) (heigth_px crop_px : Nat)
    (size : Nat × Nat) (acc : Panel) (field : String) :
    Except RadErr Panel := do
  let fdf ← plookup acc field
  let view := ilocHead heigth_px fdf
  let zh ← plookup pn_orig "zh"
  let fltrd ← median_filter_df view (some field) true (some (isnull zh)) size
  let new_values := ilocHead crop_px fltrd
  let thr ←
    match ground_threshold.lookup (pyUpper field) with
    | some t => pure t
    | none => throw (.keyError field)
  let sel0 := gtThresh fdf thr
  if crop_px < sel0.nr then
    pure (pset acc field
      (assignWhere fdf (gcmSelection sel0 crop_px) new_values))
  else throw .indexError

/-- `fltr_ground_clutter_median(pn, heigth_px, crop_px, size)`
(filtering.py lines 38-56). -/
def fltr_ground_clutter_median (pn : Panel) (heigth_px crop_px : Nat)
    (size : Nat × Nat) : Except RadErr Panel := do
  let keys := dict_keys_lower ground_threshold
  let pn_new ← create_filtered_fields_if_missing pn keys
  keys.foldlM (gcm_process_field pn heigth_px crop_px size) pn_new

/-!
### Masked-array model of `filter_field` (filtering.py lines 184-219)

numpy arrays are embedded per sweep as flat lists; a masked array is a
list of (value, mask-bit) pairs, a plain ndarray a list of values.  The
2D (ray, gate) layout is irrelevant to the masking claims, so each
sweep is flattened.
-/

/-- A numpy array that is either plain or masked (`_ma_filter` branches
on `isinstance(·, np.ma.core.MaskedArray)` and on whether `.mask`
exists, so the distinction is part of the model). -/
inductive NArr where
  | plain (d : List ℚ)
  | masked (d : List (ℚ × Bool))
  deriving DecidableEq

/-- Number of cells of an embedded numpy array. -/
def NArr.length : NArr → Nat
  | .plain d => d.length
  | .masked d => d.length

/-- `marr.filled(0)`: masked cells become 0, the mask is dropped. -/
def filled0 (d : List (ℚ × Bool)) : List ℚ :=
  d.map fun p => if p.2 then 0 else p.1

/-- `_ma_filter(field_data, filterfun)` (filtering.py lines 184-192):
if the filter returns a masked array it is kept as is; a plain result
is re-masked with the input's mask, or with `False` when the input had
no mask (the `AttributeError` branch). -/
def ma_filter (field_data : NArr) (ff : NArr → NArr) : List (ℚ × Bool) :=
  match ff field_data with
  | .masked m => m
  | .plain d =>
    match field_data with
    | .masked s => d.zip (s.map Prod.snd)
    | .plain _ => d.map fun v => (v, false)

/-- A stored radar field, grouped by sweep (`get_field` returns one
sweep's slice; `radar.fields[name]['data']` is their concatenation). -/
structure RField where
  sweeps : List (List (ℚ × Bool))

/-- The full concatenated field array. -/
def RField.full (f : RField) : List (ℚ × Bool) :=
  f.sweeps.flatten

/-- `filter_field(radar, name, filled=filled, **kws)` (filtering.py
lines 195-219), returning the array stored by `add_field_like`: each
sweep is (optionally `filled(0)` first) passed through `_ma_filter`,
the results are concatenated with `np.ma.concatenate`, and only when
the concatenated mask has no set bit is the original field mask
re-applied.  `ff n` is the filter function with its per-sweep keyword
arguments (including any `zgate_kw` entry) applied. -/
def filter_field (f : RField) (ff : Nat → NArr → NArr) (filled : Bool) :
    List (ℚ × Bool) :=
  let data := f.sweeps.enum.map fun p =>
    let sdata : NArr := if filled then .plain (filled0 p.2) else .masked p.2
    ma_filter sdata (ff p.1)
  let filtered := data.flatten
  if filtered.any (fun c => c.2) then filtered
  else (filtered.map Prod.fst).zip (f.full.map Prod.snd)

/-- The mask-preservation property claimed for `filter_field`: every
input-masked cell is still masked in the stored array. -/
def maskPreserved (inp out : List (ℚ × Bool)) : Prop :=
  ∀ i, i < inp.length → (inp.getD i (0, false)).2 = true →
    (out.getD i (0, false)).2 = true

/-!
### 1D series model of `filter_series_skipna` (filtering.py lines
171-181, identical copy in dev.py lines 102-112)

A pandas Series over a default integer index is a `List (Option ℚ)`.
-/

/-- `s.rolling(w, center=True, min_periods=minp).mean()`: centered
window `[i - (w - (w-1)/2 - 1), i + (w-1)/2]` clipped to the series,
mean of the non-NaN values when at least `minp` of them exist. -/
def rolling_mean_center (w minp : Nat) (s : List (Option ℚ)) :
    List (Option ℚ) :=
  (List.range s.length).map fun i =>
    let off : Int := ((w : Int) - 1) / 2
    let idxs := (List.range w).filterMap fun k =>
      let z : Int := (i : Int) + off - (k : Int)
      if 0 ≤ z ∧ z < (s.length : Int) then some z.toNat else none
    let vals := idxs.filterMap fun j => s.getD j none
    if minp ≤ vals.length ∧ 0 < vals.length then
      some (vals.sum / (vals.length : ℚ))
    else none

/-- Position of a label in a pandas index (first occurrence), used for
the label alignment performed by `reindex`. -/
def idxIn (a : Nat) : List Nat → Option Nat
  | [] => none
  | x :: xs => if x = a then some 0 else (idxIn a xs).map (· + 1)

/-- The `filled` series of `filter_series_skipna`: NaN gaps pre-filled
with the centered rolling-mean estimate (window 40, min 5 valid
samples); positions where the estimate is itself undefined stay NaN. -/
def fss_filled (s : List (Option ℚ)) : List (Option ℚ) :=
  (List.range s.length).map fun i =>
    match s.getD i none with
    | some v => some v
    | none => (rolling_mean_center 40 5 s).getD i none

/-- The index labels of `filled.dropna()`: the positions kept after
dropping the still-missing values. -/
def fss_keptIdx (s : List (Option ℚ)) : List Nat :=
  (List.range s.length).filter fun i => ((fss_filled s).getD i none).isSome

/-- `filter_series_skipna(s, filterfun)` (filtering.py lines 171-181,
identical copy in dev.py lines 102-112): the NaN-free subsequence of
`fss_filled` is filtered, the result re-indexed over the original
labels (`reindex`), and finally re-masked at the positions where `s`
was missing.  Returns `none` when the filter output length does not
match the kept index (pandas would raise there). -/
def filter_series_skipna (s : List (Option ℚ))
    (filterfun : List ℚ → List (Option ℚ)) : Option (List (Option ℚ)) :=
  let data := filterfun ((fss_filled s).filterMap id)
  if data.length = (fss_keptIdx s).length then
    some ((List.range s.length).map fun i =>
      if (s.getD i none).isNone then none
      else
        match idxIn i (fss_keptIdx s) with
        | some k => data.getD k none
        | none => none)
  else none

/-!
### Nearest-value search `find` (spec §4.5)
-/

/-- Minimum of a non-empty list (head seeds the fold). -/
def minD : List ℚ → ℚ
  | [] => 0
  | x :: xs => xs.foldl min x

/-- First index of the minimal element. -/
def argminFirst : List ℚ → Nat
  | [] => 0
  | [_] => 0
  | x :: y :: r => if x ≤ minD (y :: r) then 0 else argminFirst (y :: r) + 1

/-- Modelled from the spec: `find(height_vector, target)` is defined in
`radproc/ml.py`, which is not under `src/` (only its caller
`edge_gates` in dev.py lines 95-99 is).  Per the spec it "returns an
index `i` such that `abs(height_vector[i] - target) <=
abs(height_vector[j] - target)` for all `j`, with deterministic
tie-break to the first such index", without assuming sortedness: the
first index minimising the absolute distance to the target. -/
def find (l : List ℚ) (t : ℚ) : Nat :=
  argminFirst (l.map fun x => |x - t|)

end Radproc

/-!
### Provenance-trace model of the dev.py melting-layer pipeline

The claims about `add_mli` (dev.py lines 115-121) concern which scipy
filters are applied, in what order, and to which fields.  The scipy
routines (`median_filter`, `uniform_filter`, `savgol_filter`) and the
external indicator formula `ind` (radproc/ml.py, not under `src/`) are
therefore embedded as uninterpreted constructors of a provenance term;
the repository functions (`filter_field`, `scale_field`,
`_ml_indicator`, `_add_ml_indicator`, `add_mli`) are translated as
state-passing functions over a field store mapping names to provenance
terms.  The per-sweep loop of `filter_field` and its two mask
re-applications (with the very same source mask) are collapsed into a
single `maskLike` node.
-/

namespace Dev

/-- Provenance of a radar field array. -/
inductive FieldExpr where
  /-- A field present on the radar object before `add_mli`. -/
  | init (name : String)
  /-- `scipy.ndimage.median_filter(x, size=size, mode=mode)`. -/
  | medianF (size : Nat) (mode : String) (x : FieldExpr)
  /-- `scipy.ndimage.uniform_filter(x, size=(s0, s1), mode=mode)`. -/
  | uniformF (s0 s1 : Nat) (mode : String) (x : FieldExpr)
  /-- `scipy.signal.savgol_filter(x, window_length, polyorder, axis=axis)`. -/
  | savgolF (window polyorder axis : Nat) (x : FieldExpr)
  /-- `RadarDataScaler(field_type).fit_transform(x)` (scale_field). -/
  | scaled (fieldType : String) (x : FieldExpr)
  /-- `ind(zdr_scaled, zh_scaled, rho)` (radproc/ml.py). -/
  | mlInd (zdrS zhS rho : FieldExpr)
  /-- `np.ma.array(x, mask=maskSrc.mask)`: re-mask `x` with the mask of
  `maskSrc` (filter_field, dev.py line 76). -/
  | maskLike (maskSrc x : FieldExpr)
  deriving DecidableEq

/-- Does a moving-average (`uniform_filter`) step occur anywhere in the
provenance of a field? -/
def FieldExpr.hasUniform : FieldExpr → Bool
  | .init _ => false
  | .medianF _ _ x => x.hasUniform
  | .uniformF _ _ _ _ => true
  | .savgolF _ _ _ x => x.hasUniform
  | .scaled _ x => x.hasUniform
  | .mlInd a b c => a.hasUniform || b.hasUniform || c.hasUniform
  | .maskLike a b => a.hasUniform || b.hasUniform

/-- The radar object's named field store. -/
abbrev Store := List (String × FieldExpr)

/-- `FLTRD_SUFFIX` (dev.py line 18). -/
def FLTRD_SUFFIX : String := "_filtered"

/-- Modelled from the spec: the field aliases `zh`, `zdr`, `rhohv`,
`mli` are imported from `radproc.aliases`, which is not under `src/`;
only their distinctness matters, so they are embedded as short
distinct names. -/
def zh : String := "zh"

/-- Modelled from the spec: see `zh`. -/
def zdr : String := "zdr"

/-- Modelled from the spec: see `zh`. -/
def rhohv : String := "rhohv"

/-- Modelled from the spec: see `zh`. -/
def mli : String := "mli"

/-- `filter_field(radar, fieldname, filterfun=..., **kws)` (dev.py
lines 72-81): read the field, apply the filter per sweep, re-mask with
the original field's mask, and store under `fieldname + '_filtered'`
(or the same name when it already carries the suffix).  `ff` is the
provenance constructor of the scipy filter with its keyword
arguments. -/
def filter_field (radar : Store) (fieldname : String)
    (ff : FieldExpr → FieldExpr) : Option Store :=
  match radar.lookup fieldname with
  | none => none
  | some fe =>
    let filtered := FieldExpr.maskLike fe (ff fe)
    let fieldname_out :=
      if Radproc.pyEndsWith fieldname FLTRD_SUFFIX then fieldname
      else fieldname ++ FLTRD_SUFFIX
    some (Radproc.pset radar fieldname_out filtered)

/-- `scale_field(radar, field, field_type)` (dev.py lines 41-48). -/
def scale_field (radar : Store) (field fieldType : String) :
    Option FieldExpr :=
  (radar.lookup field).map (FieldExpr.scaled fieldType)

/-- `_ml_indicator(radar)` (dev.py lines 51-55): the indicator is
`ind` of scaled `zdr_filtered`, scaled `zh`, and raw-read
`rhohv_filtered`. -/
def ml_indicator (radar : Store) : Option FieldExpr := do
  let zh_scaled ← scale_field radar zh zh
  let zdr_scaled ← scale_field radar (zdr ++ FLTRD_SUFFIX) zdr
  let rho ← radar.lookup (rhohv ++ FLTRD_SUFFIX)
  pure (.mlInd zdr_scaled zh_scaled rho)

/-- `_add_ml_indicator(radar)` (dev.py lines 58-64): store the
indicator under the `mli` alias. -/
def add_ml_indicator (radar : Store) : Option Store :=
  (ml_indicator radar).map fun e => Radproc.pset radar mli e

/-- `add_mli(radar)` (dev.py lines 115-121): median-filter ZDR and
RHOHV, compute the indicator, then uniform-filter and savgol-filter
the `mli` field (each call reading the field named `mli` and writing
`mli + '_filtered'`). -/
def add_mli (radar : Store) : Option Store := do
  let radar ← filter_field radar zdr (.medianF 10 "wrap")
  let radar ← filter_field radar rhohv (.medianF 10 "wrap")
  let radar ← add_ml_indicator radar
  let radar ← filter_field radar mli (.uniformF 30 1 "wrap")
  filter_field radar mli (.savgolF 60 3 1)

end Dev

/-!
### Concrete inputs used by counterexamples and witnesses
-/

namespace Radproc

/-- Initial radar store for the `add_mli` pipeline: raw `zh`, `zdr` and
`rhohv` fields. -/
def devR0 : Dev.Store :=
  [(Dev.zh, .init Dev.zh), (Dev.zdr, .init Dev.zdr),
   (Dev.rhohv, .init Dev.rhohv)]

/-- A one-sweep radar field whose first cell is masked. -/
def fC2 : RField := ⟨[[(1, true), (2, false)]]⟩

/-- A filter function returning a masked array that numerically fills
the input's masked cell and masks a different one. -/
def ffC2 : Nat → NArr → NArr := fun _ _ => .masked [(5, false), (5, true)]

/-- A two-sweep radar field with one masked cell. -/
def fC2w : RField := ⟨[[(1, true), (2, false)], [(3, false)]]⟩

/-- A plain-array-returning filter function (as the scipy filters are):
it numerically fills masked cells with their stored values. -/
def ffC2w : Nat → NArr → NArr := fun _ a =>
  match a with
  | .plain d => .plain d
  | .masked d => .plain (d.map Prod.fst)

/-- The spec's round-trip example series `[1, NaN, 3, 4, NaN]`. -/
def sC3 : List (Option ℚ) := [some 1, none, some 3, some 4, none]

/-- A 1x1 DataFrame whose only cell is missing. -/
def dfC5 : DF := ⟨1, 1, fun _ _ => none⟩

/-- An all-`False` 1x1 null mask (missing nothing). -/
def nmC5 : BF := ⟨1, 1, fun _ _ => false⟩

/-- A 1x2 DataFrame with one missing and one present cell. -/
def dfC5w : DF := ⟨1, 2, fun _ j => if j = 0 then none else some 1⟩

/-- A 1x1 DataFrame (used to exercise the unknown-param error). -/
def dfC8 : DF := ⟨1, 1, fun _ _ => some 0⟩

/-- 22x1 ZDR frame: first bin 4 (above threshold), second bin 1 (below
threshold), remaining bins 0. -/
def gzC6 : DF :=
  ⟨22, 1, fun i _ => if i = 0 then some 4 else if i = 1 then some 1 else some 0⟩

/-- 22x1 all-zero frame. -/
def gzeroC6 : DF := ⟨22, 1, fun _ _ => some 0⟩

/-- Panel for the ground-clutter counterexample: lower-case working
copies present, no missing cells in `zh`. -/
def pnC6 : Panel := [("zdr", gzC6), ("kdp", gzeroC6), ("zh", gzeroC6)]

/-- 21x1 all-zero frame. -/
def g21 : DF := ⟨21, 1, fun _ _ => some 0⟩

/-- Panel for the ground-clutter witness. -/
def pnC6w : Panel := [("zdr", g21), ("kdp", g21), ("zh", g21)]

/-- 1x1 frame holding `1`. -/
def oneC7 : DF := ⟨1, 1, fun _ _ => some 1⟩

/-- 1x1 frame holding `0.5` (below the 0.8 rho limit). -/
def rhoC7 : DF := ⟨1, 1, fun _ _ => some (1/2)⟩

/-- Panel for the non-meteorological-rejection witness. -/
def pnC7 : Panel :=
  [("ZH", oneC7), ("ZDR", oneC7), ("KDP", oneC7),
   ("zh", oneC7), ("zdr", oneC7), ("kdp", oneC7), ("rho", rhoC7)]

/-- Panel exercising both rejection policies for the frame-effect
witness. -/
def pnC9 : Panel :=
  [("ZH", g21), ("ZDR", g21), ("KDP", g21),
   ("zh", g21), ("zdr", g21), ("kdp", g21), ("rho", g21)]

end Radproc

/-!
## Helper lemmas
-/

namespace Radproc

theorem lookup_pset_self {α : Type} (l : List (String × α)) (k : String)
    (v : α) : (pset l k v).lookup k = some v := by
  induction l with
  | nil => simp [pset]
  | cons p rest ih =>
    obtain ⟨k0, v0⟩ := p
    by_cases h : k0 = k
    · subst h; simp [pset]
    · simp only [pset, if_neg h, List.lookup]
      have hb : (k == k0) = false := by
        simp [beq_eq_false_iff_ne]; exact fun he => h he.symm
      simp [hb, ih]

theorem lookup_pset_ne {α : Type} (l : List (String × α)) (k k' : String)
    (v : α) (h : k' ≠ k) : (pset l k v).lookup k' = l.lookup k' := by
  induction l with
  | nil =>
    simp [pset, List.lookup, show (k' == k) = false by simp [beq_eq_false_iff_ne, h]]
  | cons p rest ih =>
    obtain ⟨k0, v0⟩ := p
    by_cases h0 : k0 = k
    · subst h0
      simp [pset, List.lookup, show (k' == k0) = false by simp [beq_eq_false_iff_ne, h]]
    · simp only [pset, if_neg h0, List.lookup]
      by_cases hk : k' = k0
      · simp [hk]
      · simp [show (k' == k0) = false by simp [beq_eq_false_iff_ne, hk], ih]

theorem lookup_pset_isSome {α : Type} (l : List (String × α)) (k k' : String)
    (v : α) (h : (l.lookup k').isSome = true) :
    ((pset l k v).lookup k').isSome = true := by
  by_cases hk : k' = k
  · subst hk; simp [lookup_pset_self]
  · rw [lookup_pset_ne _ _ _ _ hk]; exact h

/-- Sanity: the reduced-form constant `rat35` is the literal 3.5. -/
theorem rat35_eq : rat35 = 7 / 2 := by
  rw [show rat35 = mkRat 7 2 from by decide, Rat.mkRat_eq_div]
  norm_num

/-- Sanity: the reduced-form constant `rat022` is the literal 0.22. -/
theorem rat022_eq : rat022 = 22 / 100 := by
  rw [show rat022 = mkRat 11 50 from by decide, Rat.mkRat_eq_div]
  norm_num

/-- Sanity: the reduced-form constant `rat08` is the literal 0.8. -/
theorem rat08_eq : rat08 = 8 / 10 := by
  rw [show rat08 = mkRat 4 5 from by decide, Rat.mkRat_eq_div]
  norm_num

theorem exc_bind_ok {ε α β : Type} (a : α) (f : α → Except ε β) :
    (Except.ok a >>= f) = f a := rfl

theorem exc_bind_error {ε α β : Type} (e : ε) (f : α → Except ε β) :
    ((Except.error e : Except ε α) >>= f) = Except.error e := rfl

theorem exc_pure {ε α : Type} (a : α) : (pure a : Except ε α) = Except.ok a :=
  rfl

theorem exc_throw {ε α : Type} (e : ε) :
    (throw e : Except ε α) = Except.error e := rfl

/-!
## Claim C8
-/

/-- C8: calling `median_filter_df` with `fill=True` and a `param` that
is not a key of the fill-value configuration table fails with a
ConfigurationError, surfaced immediately (the returned computation is
the error itself; nothing is filtered and no fallback value is
produced). -/
theorem median_filter_df_unknown_param_raises (df : DF) (nmArg : Option BF)
    (sz : Nat × Nat) (p : String)
    (hp : NAN_REPLACEMENT.lookup (pyUpper p) = none) :
    median_filter_df df (some p) true nmArg sz =
      Except.error (RadErr.configurationError p) := by
  simp [median_filter_df, hp, exc_throw, exc_bind_error]

/-- C8 witness: `"FOO"` is not a key of the table, and the call fails
with the ConfigurationError. -/
theorem median_filter_df_unknown_param_raises_witness :
    NAN_REPLACEMENT.lookup (pyUpper "FOO") = none ∧
    median_filter_df dfC8 (some "FOO") true none (1, 1) =
      Except.error (RadErr.configurationError "FOO") :=
  ⟨by decide, median_filter_df_unknown_param_raises dfC8 none (1, 1) "FOO"
    (by decide)⟩

/-!
## Claim C5
-/

/-- C5 counterexample: with `fill=True` but a caller-supplied `nullmask`
that marks nothing (exactly how `fltr_ground_clutter_median` passes the
`zh` mask), the input's missing cell comes back filled: the output mask
is not a superset of the input mask. -/
theorem median_filter_df_foreign_nullmask_cex :
    dfC5.cell 0 0 = none ∧
    (median_filter_df dfC5 (some "ZH") true (some nmC5) (1, 1)).toOption.map
      (fun g => g.cell 0 0) = some (some (-32)) := by
  decide

/-- C5 (amended): for every invocation of `median_filter_df` with
`fill=True` that omits the `nullmask` argument (so it defaults to the
input's own null mask), every position missing in the input DataFrame
is missing in the output. -/
theorem median_filter_df_default_nullmask_keeps_missing (df : DF)
    (param : Option String) (sz : Nat × Nat) (i j : Nat)
    (hi : i < df.nr) (hj : j < df.nc) (hmiss : df.cell i j = none)
    (hok : (median_filter_df df param true none sz).isOk = true) :
    (median_filter_df df param true none sz).toOption.map
      (fun g => g.cell i j) = some none := by
  cases param with
  | none =>
    simp [median_filter_df, exc_bind_ok, exc_pure, Except.toOption,
      setNoneWhere, isnull, hi, hj, hmiss]
  | some p =>
    cases hlk : NAN_REPLACEMENT.lookup (pyUpper p) with
    | none =>
      simp [median_filter_df, hlk, exc_throw, exc_bind_error, Except.isOk,
        Except.toBool] at hok
    | some v =>
      simp [median_filter_df, hlk, exc_bind_ok, exc_pure, Except.toOption,
        setNoneWhere, isnull, hi, hj, hmiss]

/-- C5 witness for the amended claim: a concrete frame with a missing
cell, default null mask. -/
theorem median_filter_df_default_nullmask_keeps_missing_witness :
    0 < dfC5w.nr ∧ 0 < dfC5w.nc ∧ dfC5w.cell 0 0 = none ∧
    (median_filter_df dfC5w (some "ZH") true none (1, 1)).isOk = true ∧
    (median_filter_df dfC5w (some "ZH") true none (1, 1)).toOption.map
      (fun g => g.cell 0 0) = some none :=
  ⟨by decide, by decide, rfl, by decide,
    median_filter_df_default_nullmask_keeps_missing dfC5w (some "ZH") (1, 1)
      0 0 (by decide) (by decide) rfl (by decide)⟩

/-!
## Claim C10
-/

/-- C10: the `rholim` parameter of `fltr_nonmet` has no effect: the body
compares `rho` against the constant 0.8, never against `rholim`. -/
theorem fltr_nonmet_rholim_irrelevant (pn : Panel) (fields : List String)
    (r1 r2 : ℚ) : fltr_nonmet pn fields r1 = fltr_nonmet pn fields r2 :=
  rfl

/-!
## Claim C4
-/

theorem foldl_min_le_init : ∀ (xs : List ℚ) (a : ℚ), xs.foldl min a ≤ a
  | [], a => le_refl a
  | x :: xs, a => le_trans (foldl_min_le_init xs (min a x)) (min_le_left a x)

theorem foldl_min_le_mem : ∀ (xs : List ℚ) (a y : ℚ), y ∈ xs →
    xs.foldl min a ≤ y := by
  intro xs
  induction xs with
  | nil => intro a y hy; cases hy
  | cons x xs ih =>
    intro a y hy
    show xs.foldl min (min a x) ≤ y
    rcases List.mem_cons.mp hy with rfl | h2
    · exact le_trans (foldl_min_le_init xs (min a y)) (min_le_right a y)
    · exact ih (min a x) y h2

theorem minD_le_mem (l : List ℚ) (y : ℚ) (h : y ∈ l) : minD l ≤ y := by
  cases l with
  | nil => cases h
  | cons x xs =>
    show xs.foldl min x ≤ y
    rcases List.mem_cons.mp h with rfl | h2
    · exact foldl_min_le_init xs y
    · exact foldl_min_le_mem xs x y h2

theorem foldl_min_assoc : ∀ (ys : List ℚ) (a b : ℚ),
    ys.foldl min (min a b) = min a (ys.foldl min b)
  | [], _, _ => rfl
  | z :: ys, a, b => by
    show ys.foldl min (min (min a b) z) = min a (ys.foldl min (min b z))
    rw [min_assoc]
    exact foldl_min_assoc ys a (min b z)

theorem minD_cons (x y : ℚ) (r : List ℚ) :
    minD (x :: y :: r) = min x (minD (y :: r)) := by
  show r.foldl min (min x y) = min x (r.foldl min y)
  exact foldl_min_assoc r x y

theorem argminFirst_lt_length : ∀ (l : List ℚ), l ≠ [] →
    argminFirst l < l.length
  | [], h => absurd rfl h
  | [_], _ => by simp [argminFirst]
  | x :: y :: r, _ => by
    by_cases hc : x ≤ minD (y :: r)
    · simp [argminFirst, hc]
    · have ih := argminFirst_lt_length (y :: r) (by simp)
      simp only [argminFirst, if_neg hc, List.length_cons]
      simp only [List.length_cons] at ih
      omega

theorem argminFirst_getD : ∀ (l : List ℚ), l ≠ [] →
    l.getD (argminFirst l) 0 = minD l
  | [], h => absurd rfl h
  | [x], _ => by simp [argminFirst, minD]
  | x :: y :: r, _ => by
    by_cases hc : x ≤ minD (y :: r)
    · simp only [argminFirst, if_pos hc, minD_cons, List.getD_cons_zero]
      exact (min_eq_left hc).symm
    · have ih := argminFirst_getD (y :: r) (by simp)
      simp only [argminFirst, if_neg hc, minD_cons, List.getD_cons_succ]
      rw [ih, min_eq_right (le_of_lt (not_le.mp hc))]

theorem argminFirst_first : ∀ (l : List ℚ) (j : Nat), j < argminFirst l →
    minD l < l.getD j 0
  | [], j, h => by simp [argminFirst] at h
  | [x], j, h => by simp [argminFirst] at h
  | x :: y :: r, j, h => by
    by_cases hc : x ≤ minD (y :: r)
    · rw [argminFirst, if_pos hc] at h; cases h
    · rw [argminFirst, if_neg hc] at h
      rw [minD_cons, min_eq_right (le_of_lt (not_le.mp hc))]
      cases j with
      | zero => exact not_le.mp hc
      | succ j2 =>
        have ih := argminFirst_first (y :: r) j2 (by omega)
        simpa using ih

/-- C4: `find(height_vector, target)` returns an index `i` with
`|height_vector[i] - target| ≤ |height_vector[j] - target|` for every
index `j`, and when several indices attain the minimum it returns the
first one (every strictly earlier index has strictly larger distance);
no monotonicity of the height vector is assumed. -/
theorem find_nearest_first (l : List ℚ) (t : ℚ) (h : l ≠ []) :
    find l t < l.length ∧
    (∀ j, j < l.length → |l.getD (find l t) 0 - t| ≤ |l.getD j 0 - t|) ∧
    (∀ j, j < find l t → |l.getD (find l t) 0 - t| < |l.getD j 0 - t|) := by
  have hd : (l.map fun x => |x - t|) ≠ [] := by
    cases l with
    | nil => exact absurd rfl h
    | cons a as => simp
  have hlen : (l.map fun x => |x - t|).length = l.length := List.length_map _ _
  have htr : ∀ j, j < l.length →
      (l.map fun x => |x - t|).getD j 0 = |l.getD j 0 - t| := by
    intro j hj
    rw [List.getD_eq_getElem _ _ (by rwa [hlen]), List.getD_eq_getElem _ _ hj,
      List.getElem_map]
  have h1 : find l t < l.length := by
    rw [← hlen]; exact argminFirst_lt_length _ hd
  have hmin : (l.map fun x => |x - t|).getD (find l t) 0 =
      minD (l.map fun x => |x - t|) := argminFirst_getD _ hd
  refine ⟨h1, ?_, ?_⟩
  · intro j hj
    rw [← htr _ h1, ← htr _ hj, hmin]
    refine minD_le_mem _ _ ?_
    rw [List.getD_eq_getElem _ _ (by rwa [hlen])]
    exact List.getElem_mem _
  · intro j hj
    rw [← htr _ h1, ← htr _ (lt_trans hj h1), hmin]
    exact argminFirst_first _ j hj

/-- C4 witness: the spec's example `height_vector=[5,3,4,3]`,
`target=3` gives index 1, and the theorem's guarantees hold there. -/
theorem find_nearest_first_witness :
    find [5, 3, 4, 3] 3 = 1 ∧ ([5, 3, 4, 3] : List ℚ) ≠ [] ∧
    (find [5, 3, 4, 3] 3 < ([5, 3, 4, 3] : List ℚ).length ∧
      (∀ j, j < ([5, 3, 4, 3] : List ℚ).length →
        |([5, 3, 4, 3] : List ℚ).getD (find [5, 3, 4, 3] 3) 0 - 3| ≤
          |([5, 3, 4, 3] : List ℚ).getD j 0 - 3|) ∧
      (∀ j, j < find [5, 3, 4, 3] 3 →
        |([5, 3, 4, 3] : List ℚ).getD (find [5, 3, 4, 3] 3) 0 - 3| <
          |([5, 3, 4, 3] : List ℚ).getD j 0 - 3|)) :=
  ⟨by norm_num [find, argminFirst, minD], by decide,
    find_nearest_first [5, 3, 4, 3] 3 (by decide)⟩

/-!
## Claim C3
-/

theorem getD_map_range {α : Type} (n i : Nat) (f : Nat → α) (d : α)
    (h : i < n) : ((List.range n).map f).getD i d = f i := by
  rw [List.getD_eq_getElem _ _ (by simpa using h), List.getElem_map,
    List.getElem_range]

theorem length_filterMap_id_map {α : Type} (f : Nat → Option α) :
    ∀ l : List Nat, ((l.map f).filterMap id).length =
      (l.filter fun x => (f x).isSome).length := by
  intro l
  induction l with
  | nil => rfl
  | cons x l ih =>
    cases hf : f x with
    | none => simpa [List.filterMap_cons, hf, List.filter_cons] using ih
    | some v => simpa [List.filterMap_cons, hf, List.filter_cons] using ih

theorem idxIn_of_mem : ∀ (l : List Nat) (a : Nat), a ∈ l →
    ∃ k, idxIn a l = some k ∧ k < l.length := by
  intro l
  induction l with
  | nil => intro a h; cases h
  | cons x xs ih =>
    intro a h
    by_cases hx : x = a
    · exact ⟨0, by simp [idxIn, hx], by simp⟩
    · rcases List.mem_cons.mp h with rfl | h2
      · exact absurd rfl hx
      · obtain ⟨k, hk, hkl⟩ := ih a h2
        exact ⟨k + 1, by simp [idxIn, hx, hk], by simpa using hkl⟩

theorem getD_mem {α : Type} (l : List α) (k : Nat) (d : α)
    (h : k < l.length) : l.getD k d ∈ l := by
  rw [List.getD_eq_getElem _ _ h]
  exact List.getElem_mem _

theorem fss_data_length (s : List (Option ℚ))
    (filterfun : List ℚ → List (Option ℚ))
    (hlen : ∀ xs, (filterfun xs).length = xs.length) :
    (filterfun ((fss_filled s).filterMap id)).length =
      (fss_keptIdx s).length := by
  rw [hlen, fss_filled, fss_keptIdx, length_filterMap_id_map]
  congr 1
  refine List.filter_congr ?_
  intro x hx
  rw [fss_filled, getD_map_range _ _ _ _ (List.mem_range.mp hx)]

/-- C3: for every 1D series `s` and every filter function that is
length-preserving and returns no NaN, `filter_series_skipna`
succeeds and returns a series that is NaN at exactly the positions
where `s` is NaN. -/
theorem filter_series_skipna_nan_positions (s : List (Option ℚ))
    (filterfun : List ℚ → List (Option ℚ))
    (hlen : ∀ xs, (filterfun xs).length = xs.length)
    (hnn : ∀ xs, ∀ v ∈ filterfun xs, v.isSome = true) :
    ∃ out, filter_series_skipna s filterfun = some out ∧
      out.length = s.length ∧
      ∀ i, i < s.length →
        ((out.getD i none).isNone = true ↔ (s.getD i none).isNone = true) := by
  have hdl := fss_data_length s filterfun hlen
  refine ⟨_, by rw [filter_series_skipna, if_pos hdl], by simp, ?_⟩
  intro i hi
  rw [getD_map_range _ _ _ _ hi]
  cases hsv : s.getD i none with
  | none => simp
  | some v =>
    have hmem : i ∈ fss_keptIdx s := by
      rw [fss_keptIdx, List.mem_filter]
      refine ⟨List.mem_range.mpr hi, ?_⟩
      rw [fss_filled, getD_map_range _ _ _ _ hi, hsv]
      rfl
    obtain ⟨k, hk, hkl⟩ := idxIn_of_mem _ _ hmem
    have hkd : k < (filterfun ((fss_filled s).filterMap id)).length := by
      rw [hdl]; exact hkl
    have hs2 := hnn ((fss_filled s).filterMap id)
      ((filterfun ((fss_filled s).filterMap id)).getD k none)
      (getD_mem _ _ _ hkd)
    cases hval : (filterfun ((fss_filled s).filterMap id)).getD k none with
    | none => rw [hval] at hs2; simp at hs2
    | some w =>
      rw [List.getD_eq_getElem?_getD] at hval
      simp [hsv, hk, hval]

/-- C3 witness: the spec's round-trip example `[1, NaN, 3, 4, NaN]`
with an identity-preserving smoother: the output is NaN at exactly
indices 1 and 4. -/
theorem filter_series_skipna_nan_positions_witness :
    ((filter_series_skipna sC3 (fun xs => xs.map some)).map
      (List.map Option.isNone) = some [false, true, false, false, true]) ∧
    (∃ out, filter_series_skipna sC3 (fun xs => xs.map some) = some out ∧
      out.length = sC3.length ∧
      ∀ i, i < sC3.length →
        ((out.getD i none).isNone = true ↔ (sC3.getD i none).isNone = true)) :=
  ⟨by decide, filter_series_skipna_nan_positions sC3 (fun xs => xs.map some)
    (fun xs => by simp)
    (fun xs v hv => by
      simp only [List.mem_map] at hv
      obtain ⟨a, _, rfl⟩ := hv
      rfl)⟩

/-!
## Claim C2
-/

theorem map_snd_zip_len {α β : Type} :
    ∀ (a : List α) (b : List β), a.length = b.length →
      (a.zip b).map Prod.snd = b
  | [], [], _ => rfl
  | [], _ :: _, h => by simp at h
  | _ :: _, [], h => by simp at h
  | x :: a, y :: b, h => by
    simpa using map_snd_zip_len a b (by simpa using h)

theorem map_snd_pairs_false (d : List ℚ) :
    (d.map fun v => (v, false)).map Prod.snd =
      List.replicate d.length false := by
  induction d with
  | nil => rfl
  | cons x d ih => simp [ih, List.replicate_succ]

theorem ma_filter_of_plain_result (a : NArr) (g : NArr → NArr) (d : List ℚ)
    (hd : g a = .plain d) :
    ma_filter a g =
      match a with
      | .masked s => d.zip (s.map Prod.snd)
      | .plain _ => d.map fun v => (v, false) := by
  cases a with
  | plain s => simp only [ma_filter, hd]
  | masked s => simp only [ma_filter, hd]

/-- C2 counterexample: a filter function that returns a masked array
(numerically filling the input's masked cell and masking another one)
defeats the mask re-application of `filter_field`: the input's masked
cell 0 is stored unmasked. -/
theorem filter_field_mask_dropped_cex :
    ¬ maskPreserved fC2.full (filter_field fC2 ffC2 false) := by
  intro h
  have h0 := h 0 (by decide) (by decide)
  revert h0
  decide

/-- C2 (amended): whenever the filter function returns plain
(unmasked) arrays of the input's length — as the scipy filters the
repository passes do — the stored field's mask equals the input
field's mask, so every input-masked cell stays masked even when the
filter numerically fills it. -/
theorem filter_field_mask_eq_of_plain (f : RField) (ff : Nat → NArr → NArr)
    (filled : Bool)
    (hplain : ∀ n a, ∃ d, ff n a = NArr.plain d ∧ d.length = a.length) :
    (filter_field f ff filled).map Prod.snd = f.full.map Prod.snd := by
  cases filled with
  | true =>
    simp only [filter_field, reduceIte]
    have hmask : ∀ p ∈ f.sweeps.enum,
        (ma_filter (.plain (filled0 p.2)) (ff p.1)).map Prod.snd =
          List.replicate p.2.length false := by
      intro p _
      obtain ⟨d, hd, hl⟩ := hplain p.1 (.plain (filled0 p.2))
      rw [ma_filter_of_plain_result _ _ _ hd, map_snd_pairs_false, hl]
      simp [NArr.length, filled0]
    have hany : ((f.sweeps.enum.map fun p =>
        ma_filter (.plain (filled0 p.2)) (ff p.1)).flatten.any
          fun c => c.2) = false := by
      cases hcase : ((f.sweeps.enum.map fun p =>
          ma_filter (.plain (filled0 p.2)) (ff p.1)).flatten.any
            fun c => c.2) with
      | false => rfl
      | true =>
        exfalso
        obtain ⟨c, hc, hc2⟩ := List.any_eq_true.mp hcase
        obtain ⟨lsub, hlsub, hcl⟩ := List.mem_flatten.mp hc
        obtain ⟨p, hp, rfl⟩ := List.mem_map.mp hlsub
        have hmem : c.2 ∈ (ma_filter (.plain (filled0 p.2)) (ff p.1)).map
            Prod.snd := List.mem_map.mpr ⟨c, hcl, rfl⟩
        rw [hmask p hp] at hmem
        rw [List.eq_of_mem_replicate hmem] at hc2
        cases hc2
    rw [hany]
    simp only [Bool.false_eq_true, if_false]
    have e1 : f.sweeps.enum.map
        (List.length ∘ fun p => ma_filter (.plain (filled0 p.2)) (ff p.1)) =
          f.sweeps.enum.map (List.length ∘ Prod.snd) :=
      List.map_eq_map_iff.mpr (fun p hp => by
        have h2 := congrArg List.length (hmask p hp)
        simpa using h2)
    have hlens : (f.sweeps.enum.map fun p =>
        ma_filter (.plain (filled0 p.2)) (ff p.1)).map List.length =
          f.sweeps.map List.length := by
      rw [List.map_map, e1, ← List.map_map, List.enum_map_snd]
    refine map_snd_zip_len _ _ ?_
    simp only [List.length_map, RField.full, List.length_flatten]
    rw [hlens]
  | false =>
    simp only [filter_field, Bool.false_eq_true, if_false]
    have hmask : ∀ p ∈ f.sweeps.enum,
        (ma_filter (.masked p.2) (ff p.1)).map Prod.snd = p.2.map Prod.snd := by
      intro p _
      obtain ⟨d, hd, hl⟩ := hplain p.1 (.masked p.2)
      rw [ma_filter_of_plain_result _ _ _ hd]
      refine map_snd_zip_len _ _ ?_
      simpa [NArr.length] using hl
    have e1 : f.sweeps.enum.map
        (List.map Prod.snd ∘ fun p => ma_filter (.masked p.2) (ff p.1)) =
          f.sweeps.enum.map (List.map Prod.snd ∘ Prod.snd) :=
      List.map_eq_map_iff.mpr (fun p hp => by simpa using hmask p hp)
    have hflat : (f.sweeps.enum.map fun p =>
        ma_filter (.masked p.2) (ff p.1)).flatten.map Prod.snd =
          f.full.map Prod.snd := by
      rw [List.map_flatten, List.map_map, e1, ← List.map_map,
        List.enum_map_snd, RField.full, ← List.map_flatten]
    by_cases hany : ((f.sweeps.enum.map fun p =>
        ma_filter (.masked p.2) (ff p.1)).flatten.any fun c => c.2) = true
    · rw [if_pos hany]
      exact hflat
    · rw [if_neg hany]
      refine map_snd_zip_len _ _ ?_
      have h2 := congrArg List.length hflat
      simp only [List.length_map] at h2
      simp only [List.length_map]
      exact h2

/-- C2 witness for the amended claim: a two-sweep field with a masked
cell, filtered (with `filled=True`) by a plain-array filter that fills
masked cells: the stored mask equals the input mask. -/
theorem filter_field_mask_eq_of_plain_witness :
    (filter_field fC2w ffC2w true).map Prod.snd = fC2w.full.map Prod.snd :=
  filter_field_mask_eq_of_plain fC2w ffC2w true
    (fun n a => by
      cases a with
      | plain d => exact ⟨d, rfl, rfl⟩
      | masked d => exact ⟨d.map Prod.fst, rfl, by simp [NArr.length]⟩)

/-!
## Claim C1
-/

theorem dev_filter_field_eq (r : Dev.Store) (name : String)
    (fe : Dev.FieldExpr) (ff : Dev.FieldExpr → Dev.FieldExpr)
    (hn : r.lookup name = some fe) :
    Dev.filter_field r name ff =
      some (pset r
        (if pyEndsWith name Dev.FLTRD_SUFFIX then name
         else name ++ Dev.FLTRD_SUFFIX)
        (.maskLike fe (ff fe))) := by
  unfold Dev.filter_field
  rw [hn]

theorem opt_some_bind {α β : Type} (a : α) (f : α → Option β) :
    ((some a : Option α) >>= f) = f a := rfl

/-- C1 counterexample: after `add_mli`, the final smoothed indicator
field `mli_filtered` contains no moving-average (`uniform_filter`)
step at all in its provenance: the savgol call re-reads the raw `mli`
field and overwrites the uniform-filtered copy, so the indicator is
not smoothed "first by a 2D moving average, then by the polynomial
filter". -/
theorem add_mli_no_uniform_in_final_cex :
    ((Dev.add_mli devR0).bind
      (fun r => r.lookup (Dev.mli ++ Dev.FLTRD_SUFFIX))).map
        Dev.FieldExpr.hasUniform = some false := by
  decide

/-- C1 (amended): `add_mli` computes the melting-layer indicator only
from the median-filtered (size 10, wrap) copies of ZDR and RHO (with
ZH scaled raw), exactly as claimed; but the two smoothing calls are
not composed: the final `mli_filtered` field is the savgol filter
(window 60, degree 3, axis 1) applied directly to the unsmoothed
indicator, the uniform moving-average (size (30, 1), wrap) result
written by the fourth call having been overwritten. -/
theorem add_mli_tail (r3 : Dev.Store) (M : Dev.FieldExpr)
    (hm : r3.lookup Dev.mli = some M) :
    (Dev.filter_field r3 Dev.mli (.uniformF 30 1 "wrap") >>= fun r =>
      Dev.filter_field r Dev.mli (.savgolF 60 3 1)) =
      some (pset (pset r3 "mli_filtered"
        (.maskLike M (.uniformF 30 1 "wrap" M))) "mli_filtered"
          (.maskLike M (.savgolF 60 3 1 M))) := by
  have e4 := dev_filter_field_eq r3 Dev.mli M (.uniformF 30 1 "wrap") hm
  rw [show (if pyEndsWith Dev.mli Dev.FLTRD_SUFFIX then Dev.mli
    else Dev.mli ++ Dev.FLTRD_SUFFIX) = "mli_filtered" from rfl] at e4
  have hm4 : (pset r3 "mli_filtered"
      (.maskLike M (.uniformF 30 1 "wrap" M))).lookup Dev.mli = some M := by
    rw [lookup_pset_ne _ _ _ _ (by decide)]
    exact hm
  have e5 := dev_filter_field_eq _ Dev.mli M (.savgolF 60 3 1) hm4
  rw [show (if pyEndsWith Dev.mli Dev.FLTRD_SUFFIX then Dev.mli
    else Dev.mli ++ Dev.FLTRD_SUFFIX) = "mli_filtered" from rfl] at e5
  rw [e4, opt_some_bind]
  exact e5

/-- C1 (amended): `add_mli` computes the melting-layer indicator only
from the median-filtered (size 10, wrap) copies of ZDR and RHO (with
ZH scaled raw), exactly as claimed; but the two smoothing calls are
not composed: the final `mli_filtered` field is the savgol filter
(window 60, degree 3, axis 1) applied directly to the unsmoothed
indicator, the uniform moving-average (size (30, 1), wrap) result
written by the fourth call having been overwritten. -/
theorem add_mli_pipeline_amended (s : Dev.Store) (ze zd rh : Dev.FieldExpr)
    (hzh : s.lookup Dev.zh = some ze)
    (hzdr : s.lookup Dev.zdr = some zd)
    (hrho : s.lookup Dev.rhohv = some rh) :
    ∃ M out, Dev.add_mli s = some out ∧
      M = Dev.FieldExpr.mlInd
        (.scaled Dev.zdr (.maskLike zd (.medianF 10 "wrap" zd)))
        (.scaled Dev.zh ze)
        (.maskLike rh (.medianF 10 "wrap" rh)) ∧
      out.lookup Dev.mli = some M ∧
      out.lookup (Dev.mli ++ Dev.FLTRD_SUFFIX) =
        some (.maskLike M (.savgolF 60 3 1 M)) := by
  have e1 := dev_filter_field_eq s Dev.zdr zd (.medianF 10 "wrap") hzdr
  rw [show (if pyEndsWith Dev.zdr Dev.FLTRD_SUFFIX then Dev.zdr
    else Dev.zdr ++ Dev.FLTRD_SUFFIX) = "zdr_filtered" from rfl] at e1
  have h2 : (pset s "zdr_filtered"
      (.maskLike zd (.medianF 10 "wrap" zd))).lookup Dev.rhohv = some rh := by
    rw [lookup_pset_ne _ _ _ _ (by decide)]
    exact hrho
  have e2 := dev_filter_field_eq _ Dev.rhohv rh (.medianF 10 "wrap") h2
  rw [show (if pyEndsWith Dev.rhohv Dev.FLTRD_SUFFIX then Dev.rhohv
    else Dev.rhohv ++ Dev.FLTRD_SUFFIX) = "rhohv_filtered" from rfl] at e2
  have hzh2 : (pset (pset s "zdr_filtered"
      (.maskLike zd (.medianF 10 "wrap" zd))) "rhohv_filtered"
        (.maskLike rh (.medianF 10 "wrap" rh))).lookup Dev.zh = some ze := by
    rw [lookup_pset_ne _ _ _ _ (by decide), lookup_pset_ne _ _ _ _ (by decide)]
    exact hzh
  have hzdrf : (pset (pset s "zdr_filtered"
      (.maskLike zd (.medianF 10 "wrap" zd))) "rhohv_filtered"
        (.maskLike rh (.medianF 10 "wrap" rh))).lookup
          (Dev.zdr ++ Dev.FLTRD_SUFFIX) =
      some (.maskLike zd (.medianF 10 "wrap" zd)) := by
    rw [show Dev.zdr ++ Dev.FLTRD_SUFFIX = "zdr_filtered" from rfl,
      lookup_pset_ne _ _ _ _ (by decide), lookup_pset_self]
  have hrhof : (pset (pset s "zdr_filtered"
      (.maskLike zd (.medianF 10 "wrap" zd))) "rhohv_filtered"
        (.maskLike rh (.medianF 10 "wrap" rh))).lookup
          (Dev.rhohv ++ Dev.FLTRD_SUFFIX) =
      some (.maskLike rh (.medianF 10 "wrap" rh)) := by
    rw [show Dev.rhohv ++ Dev.FLTRD_SUFFIX = "rhohv_filtered" from rfl,
      lookup_pset_self]
  have e3 : Dev.add_ml_indicator (pset (pset s "zdr_filtered"
      (.maskLike zd (.medianF 10 "wrap" zd))) "rhohv_filtered"
        (.maskLike rh (.medianF 10 "wrap" rh))) =
      some (pset (pset (pset s "zdr_filtered"
        (.maskLike zd (.medianF 10 "wrap" zd))) "rhohv_filtered"
          (.maskLike rh (.medianF 10 "wrap" rh))) Dev.mli
        (Dev.FieldExpr.mlInd
          (.scaled Dev.zdr (.maskLike zd (.medianF 10 "wrap" zd)))
          (.scaled Dev.zh ze)
          (.maskLike rh (.medianF 10 "wrap" rh)))) := by
    unfold Dev.add_ml_indicator Dev.ml_indicator Dev.scale_field
    rw [hzh2, hzdrf, hrhof]
    rfl
  have htail := add_mli_tail
    (pset (pset (pset s "zdr_filtered"
      (.maskLike zd (.medianF 10 "wrap" zd))) "rhohv_filtered"
        (.maskLike rh (.medianF 10 "wrap" rh))) Dev.mli
      (Dev.FieldExpr.mlInd
        (.scaled Dev.zdr (.maskLike zd (.medianF 10 "wrap" zd)))
        (.scaled Dev.zh ze)
        (.maskLike rh (.medianF 10 "wrap" rh))))
    (Dev.FieldExpr.mlInd
      (.scaled Dev.zdr (.maskLike zd (.medianF 10 "wrap" zd)))
      (.scaled Dev.zh ze)
      (.maskLike rh (.medianF 10 "wrap" rh)))
    (lookup_pset_self _ _ _)
  have hrun : Dev.add_mli s =
      some (pset (pset (pset (pset (pset s "zdr_filtered"
        (.maskLike zd (.medianF 10 "wrap" zd))) "rhohv_filtered"
          (.maskLike rh (.medianF 10 "wrap" rh))) Dev.mli
        (Dev.FieldExpr.mlInd
          (.scaled Dev.zdr (.maskLike zd (.medianF 10 "wrap" zd)))
          (.scaled Dev.zh ze)
          (.maskLike rh (.medianF 10 "wrap" rh)))) "mli_filtered"
        (.maskLike (Dev.FieldExpr.mlInd
          (.scaled Dev.zdr (.maskLike zd (.medianF 10 "wrap" zd)))
          (.scaled Dev.zh ze)
          (.maskLike rh (.medianF 10 "wrap" rh)))
          (.uniformF 30 1 "wrap" (Dev.FieldExpr.mlInd
            (.scaled Dev.zdr (.maskLike zd (.medianF 10 "wrap" zd)))
            (.scaled Dev.zh ze)
            (.maskLike rh (.medianF 10 "wrap" rh)))))) "mli_filtered"
        (.maskLike (Dev.FieldExpr.mlInd
          (.scaled Dev.zdr (.maskLike zd (.medianF 10 "wrap" zd)))
          (.scaled Dev.zh ze)
          (.maskLike rh (.medianF 10 "wrap" rh)))
          (.savgolF 60 3 1 (Dev.FieldExpr.mlInd
            (.scaled Dev.zdr (.maskLike zd (.medianF 10 "wrap" zd)))
            (.scaled Dev.zh ze)
            (.maskLike rh (.medianF 10 "wrap" rh)))))) := by
    unfold Dev.add_mli
    rw [e1, opt_some_bind, e2, opt_some_bind, e3, opt_some_bind]
    exact htail
  refine ⟨Dev.FieldExpr.mlInd
      (.scaled Dev.zdr (.maskLike zd (.medianF 10 "wrap" zd)))
      (.scaled Dev.zh ze)
      (.maskLike rh (.medianF 10 "wrap" rh)), _, hrun, rfl, ?_, ?_⟩
  · rw [show Dev.mli = "mli" from rfl,
      lookup_pset_ne _ _ _ _ (by decide), lookup_pset_ne _ _ _ _ (by decide),
      show ("mli" : String) = Dev.mli from rfl, lookup_pset_self]
  · rw [show Dev.mli ++ Dev.FLTRD_SUFFIX = "mli_filtered" from rfl,
      lookup_pset_self]

/-- C1 witness: the amended pipeline characterisation applied to the
initial store holding raw `zh`, `zdr` and `rhohv` fields. -/
theorem add_mli_pipeline_amended_witness :
    ∃ M out, Dev.add_mli devR0 = some out ∧
      M = Dev.FieldExpr.mlInd
        (.scaled Dev.zdr (.maskLike (.init Dev.zdr)
          (.medianF 10 "wrap" (.init Dev.zdr))))
        (.scaled Dev.zh (.init Dev.zh))
        (.maskLike (.init Dev.rhohv) (.medianF 10 "wrap" (.init Dev.rhohv))) ∧
      out.lookup Dev.mli = some M ∧
      out.lookup (Dev.mli ++ Dev.FLTRD_SUFFIX) =
        some (.maskLike M (.savgolF 60 3 1 M)) :=
  add_mli_pipeline_amended devR0 (.init Dev.zh) (.init Dev.zdr)
    (.init Dev.rhohv) rfl rfl rfl

/-!
## Claim C7
-/

theorem create_fields_noop_zhzdrkdp (pn : Panel)
    (h1 : (pn.lookup "zh").isSome = true)
    (h2 : (pn.lookup "zdr").isSome = true)
    (h3 : (pn.lookup "kdp").isSome = true) :
    create_filtered_fields_if_missing pn ["ZH", "ZDR", "KDP"] =
      Except.ok pn := by
  unfold create_filtered_fields_if_missing
  rw [show (["ZH", "ZDR", "KDP"].map pyUpper) = ["ZH", "ZDR", "KDP"] from rfl]
  simp only [List.foldlM]
  rw [show pyLower "ZH" = "zh" from rfl, show pyLower "ZDR" = "zdr" from rfl,
    show pyLower "KDP" = "kdp" from rfl, if_pos h1, exc_pure, exc_bind_ok,
    if_pos h2, exc_pure, exc_bind_ok, if_pos h3, exc_pure, exc_bind_ok]
  rfl

theorem nonmet_step (acc : Panel) (cond : BF) (field : String) (g : DF)
    (hl : acc.lookup (pyLower field) = some g) :
    (do
      let cur ← plookup acc (pyLower field)
      pure (pset acc (pyLower field) (maskCond cur cond)) :
        Except RadErr Panel) =
      Except.ok (pset acc (pyLower field) (maskCond g cond)) := by
  unfold plookup
  rw [hl]
  rfl

theorem maskCond_cell_spec (g : DF) (cond : BF) (i j : Nat)
    (hi : i < g.nr) (hj : j < g.nc) (h1 : g.nr = cond.nr)
    (h2 : g.nc = cond.nc) :
    ((maskCond g cond).cell i j = none ↔
(g.cell i j = none ∨ cond.cell i j = true)) ∧
    (cond.cell i j = false → (maskCond g cond).cell i j = g.cell i j) := by
  have hi2 : i < cond.nr := h1 ▸ hi
  have hj2 : j < cond.nc := h2 ▸ hj
  constructor
  · by_cases hc : cond.cell i j = true
    · simp [maskCond, hc, hi2, hj2]
    · simp [maskCond, hc]
  · intro hc
    simp [maskCond, hc]

/-- C7: after `fltr_nonmet`, each lower-case copy of ZH, ZDR and KDP
is missing at exactly the positions where it was already missing or
where the `rho` field is below 0.8 (NaN `rho` does not mask), and all
other cells keep their value. -/
theorem fltr_nonmet_masks_exactly (pn : Panel) (rholim : ℚ)
    (gzh gzdr gkdp grho : DF)
    (hzh : pn.lookup "zh" = some gzh) (hzdr : pn.lookup "zdr" = some gzdr)
    (hkdp : pn.lookup "kdp" = some gkdp) (hrho : pn.lookup "rho" = some grho)
    (dzh1 : gzh.nr = grho.nr) (dzh2 : gzh.nc = grho.nc)
    (dzdr1 : gzdr.nr = grho.nr) (dzdr2 : gzdr.nc = grho.nc)
    (dkdp1 : gkdp.nr = grho.nr) (dkdp2 : gkdp.nc = grho.nc) :
    ∃ out, fltr_nonmet pn ["ZH", "ZDR", "KDP"] rholim = Except.ok out ∧
      (∃ gout, out.lookup "zh" = some gout ∧
        ∀ i j, i < gzh.nr → j < gzh.nc →
          ((gout.cell i j = none ↔
            (gzh.cell i j = none ∨ (rhoCond grho).cell i j = true)) ∧
           ((rhoCond grho).cell i j = false →
             gout.cell i j = gzh.cell i j))) ∧
      (∃ gout, out.lookup "zdr" = some gout ∧
        ∀ i j, i < gzdr.nr → j < gzdr.nc →
          ((gout.cell i j = none ↔
            (gzdr.cell i j = none ∨ (rhoCond grho).cell i j = true)) ∧
           ((rhoCond grho).cell i j = false →
             gout.cell i j = gzdr.cell i j))) ∧
      (∃ gout, out.lookup "kdp" = some gout ∧
        ∀ i j, i < gkdp.nr → j < gkdp.nc →
          ((gout.cell i j = none ↔
            (gkdp.cell i j = none ∨ (rhoCond grho).cell i j = true)) ∧
           ((rhoCond grho).cell i j = false →
             gout.cell i j = gkdp.cell i j))) := by
  have hcr := create_fields_noop_zhzdrkdp pn (by rw [hzh]; rfl)
    (by rw [hzdr]; rfl) (by rw [hkdp]; rfl)
  have hstep1 := nonmet_step pn (rhoCond grho) "ZH" gzh
    (by rw [show pyLower "ZH" = "zh" from rfl]; exact hzh)
  have hstep2 := nonmet_step (pset pn "zh" (maskCond gzh (rhoCond grho)))
    (rhoCond grho) "ZDR" gzdr
    (by
      rw [show pyLower "ZDR" = "zdr" from rfl,
        lookup_pset_ne _ _ _ _ (by decide)]
      exact hzdr)
  have hstep3 := nonmet_step (pset (pset pn "zh"
      (maskCond gzh (rhoCond grho))) "zdr" (maskCond gzdr (rhoCond grho)))
    (rhoCond grho) "KDP" gkdp
    (by
      rw [show pyLower "KDP" = "kdp" from rfl,
        lookup_pset_ne _ _ _ _ (by decide),
        lookup_pset_ne _ _ _ _ (by decide)]
      exact hkdp)
  rw [show pyLower "ZH" = "zh" from rfl] at hstep1
  rw [show pyLower "ZDR" = "zdr" from rfl] at hstep2
  rw [show pyLower "KDP" = "kdp" from rfl] at hstep3
  refine ⟨pset (pset (pset pn "zh" (maskCond gzh (rhoCond grho))) "zdr"
    (maskCond gzdr (rhoCond grho))) "kdp" (maskCond gkdp (rhoCond grho)),
    ?_, ?_, ?_, ?_⟩
  · unfold fltr_nonmet
    rw [hcr, exc_bind_ok]
    rw [show plookup pn "rho" = Except.ok grho from by
      unfold plookup; rw [hrho]; rfl]
    rw [exc_bind_ok]
    simp only [List.foldlM]
    rw [show pyLower "ZH" = "zh" from rfl,
      show pyLower "ZDR" = "zdr" from rfl,
      show pyLower "KDP" = "kdp" from rfl]
    rw [hstep1, exc_bind_ok, hstep2, exc_bind_ok, hstep3, exc_bind_ok]
    rfl
  · refine ⟨maskCond gzh (rhoCond grho), ?_, ?_⟩
    · rw [lookup_pset_ne _ _ _ _ (by decide),
        lookup_pset_ne _ _ _ _ (by decide), lookup_pset_self]
    · intro i j hi hj
      exact maskCond_cell_spec gzh (rhoCond grho) i j hi hj dzh1 dzh2
  · refine ⟨maskCond gzdr (rhoCond grho), ?_, ?_⟩
    · rw [lookup_pset_ne _ _ _ _ (by decide), lookup_pset_self]
    · intro i j hi hj
      exact maskCond_cell_spec gzdr (rhoCond grho) i j hi hj dzdr1 dzdr2
  · refine ⟨maskCond gkdp (rhoCond grho), ?_, ?_⟩
    · rw [lookup_pset_self]
    · intro i j hi hj
      exact maskCond_cell_spec gkdp (rhoCond grho) i j hi hj dkdp1 dkdp2

/-- C7 witness: a concrete panel with 1x1 fields and `rho = 0.5`. -/
theorem fltr_nonmet_masks_exactly_witness :
    ∃ out, fltr_nonmet pnC7 ["ZH", "ZDR", "KDP"] 0 = Except.ok out ∧
      (∃ gout, out.lookup "zh" = some gout ∧
        ∀ i j, i < oneC7.nr → j < oneC7.nc →
          ((gout.cell i j = none ↔
            (oneC7.cell i j = none ∨ (rhoCond rhoC7).cell i j = true)) ∧
           ((rhoCond rhoC7).cell i j = false →
             gout.cell i j = oneC7.cell i j))) ∧
      (∃ gout, out.lookup "zdr" = some gout ∧
        ∀ i j, i < oneC7.nr → j < oneC7.nc →
          ((gout.cell i j = none ↔
            (oneC7.cell i j = none ∨ (rhoCond rhoC7).cell i j = true)) ∧
           ((rhoCond rhoC7).cell i j = false →
             gout.cell i j = oneC7.cell i j))) ∧
      (∃ gout, out.lookup "kdp" = some gout ∧
        ∀ i j, i < oneC7.nr → j < oneC7.nc →
          ((gout.cell i j = none ↔
            (oneC7.cell i j = none ∨ (rhoCond rhoC7).cell i j = true)) ∧
           ((rhoCond rhoC7).cell i j = false →
             gout.cell i j = oneC7.cell i j))) :=
  fltr_nonmet_masks_exactly pnC7 0 oneC7 oneC7 oneC7 rhoC7
    rfl rfl rfl rfl rfl rfl rfl rfl rfl rfl

/-!
## Claim C6
-/

theorem median_filter_df_ok (df : DF) (p : String) (nm : BF)
    (sz : Nat × Nat) (w : ℚ)
    (hw : NAN_REPLACEMENT.lookup (pyUpper p) = some w) :
    median_filter_df df (some p) true (some nm) sz =
      Except.ok (setNoneWhere
        (fillNulls (scipyMedianFilter sz (fillna df w)) w) nm) := by
  simp only [median_filter_df, hw]
  rfl

theorem create_fields_noop_zdrkdp (pn : Panel)
    (h1 : (pn.lookup "zdr").isSome = true)
    (h2 : (pn.lookup "kdp").isSome = true) :
    create_filtered_fields_if_missing pn ["zdr", "kdp"] = Except.ok pn := by
  unfold create_filtered_fields_if_missing
  rw [show (["zdr", "kdp"].map pyUpper) = ["ZDR", "KDP"] from rfl]
  simp only [List.foldlM]
  rw [show pyLower "ZDR" = "zdr" from rfl, show pyLower "KDP" = "kdp" from rfl,
    if_pos h1, exc_pure, exc_bind_ok, if_pos h2, exc_pure, exc_bind_ok]
  rfl

theorem gcmSelection_cell (sel0 : BF) (cp i j : Nat) :
    (gcmSelection sel0 cp).cell i j =
      if cp ≤ i then false
      else if sel0.cell cp j then false
      else (sel0.cell 0 j || sel0.cell i j) := by
  show (if cp ≤ i then false
    else (setColsWhere (setColsWhere sel0 (fun j2 => sel0.cell cp j2) false)
      (fun j2 => (setColsWhere sel0 (fun j3 => sel0.cell cp j3) false).cell 0 j2)
        true).cell i j) = _
  by_cases h1 : cp ≤ i
  · simp [h1]
  · simp only [if_neg h1, setColsWhere]
    by_cases h2 : sel0.cell cp j = true
    · simp [h2]
    · rw [Bool.not_eq_true] at h2
      by_cases h3 : sel0.cell 0 j = true
      · simp [h2, h3]
      · rw [Bool.not_eq_true] at h3
        simp [h2, h3]

theorem assignWhere_gcm_cell (g fz : DF) (cp hp i j : Nat) (thr : ℚ)
    (hi : i < g.nr) (hj : j < g.nc) (hcphp : cp ≤ hp)
    (hnr : fz.nr = min hp g.nr) (hnc : fz.nc = g.nc) :
    (assignWhere g (gcmSelection (gtThresh g thr) cp)
      (ilocHead cp fz)).cell i j =
      if i < cp ∧ (gtThresh g thr).cell cp j = false ∧
          ((gtThresh g thr).cell 0 j = true ∨
            (gtThresh g thr).cell i j = true)
      then fz.cell i j else g.cell i j := by
  have hsel := gcmSelection_cell (gtThresh g thr) cp i j
  show (if i < (gcmSelection (gtThresh g thr) cp).nr ∧
      j < (gcmSelection (gtThresh g thr) cp).nc ∧
        (gcmSelection (gtThresh g thr) cp).cell i j then _ else g.cell i j) = _
  rw [show (gcmSelection (gtThresh g thr) cp).nr = g.nr from rfl,
    show (gcmSelection (gtThresh g thr) cp).nc = g.nc from rfl, hsel]
  by_cases h1 : i < cp
  · have h1n : ¬ cp ≤ i := by omega
    rw [if_neg h1n]
    by_cases h2 : (gtThresh g thr).cell cp j = true
    · rw [if_pos h2]
      rw [if_neg (by simp)]
      rw [if_neg (by
        intro hcont
        rw [hcont.2.1] at h2
        exact absurd h2 (by decide))]
    · rw [if_neg h2]
      rw [Bool.not_eq_true] at h2
      by_cases h3 : ((gtThresh g thr).cell 0 j ||
          (gtThresh g thr).cell i j) = true
      · rw [if_pos ⟨hi, hj, h3⟩]
        have hio : i < (ilocHead cp fz).nr := by
          show i < min cp fz.nr
          rw [hnr]
          omega
        have hjo : j < (ilocHead cp fz).nc := by
          show j < fz.nc
          rw [hnc]
          exact hj
        rw [if_pos ⟨hio, hjo⟩]
        rw [if_pos ⟨h1, h2, by simpa using h3⟩]
        rfl
      · rw [if_neg (fun hcont => h3 hcont.2.2)]
        rw [if_neg (by
          intro hcont
          rcases hcont.2.2 with ha | hb
          · exact h3 (by simp [ha])
          · exact h3 (by simp [hb]))]
  · have h1y : cp ≤ i := by omega
    rw [if_pos h1y]
    rw [if_neg (by simp)]
    rw [if_neg (fun hcont => h1 hcont.1)]

theorem gcm_process_field_run (pn_orig acc : Panel) (hp cp : Nat)
    (sz : Nat × Nat) (field : String) (g gzh : DF) (thr w : ℚ)
    (hf : acc.lookup field = some g)
    (hzh : pn_orig.lookup "zh" = some gzh)
    (hthr : ground_threshold.lookup (pyUpper field) = some thr)
    (hw : NAN_REPLACEMENT.lookup (pyUpper field) = some w)
    (hcp : cp < g.nr) :
    gcm_process_field pn_orig hp cp sz acc field =
      Except.ok (pset acc field
        (assignWhere g (gcmSelection (gtThresh g thr) cp)
          (ilocHead cp (gcmNewValues hp g gzh sz w)))) := by
  unfold gcm_process_field
  rw [show plookup acc field = Except.ok g from by
    unfold plookup; rw [hf]; rfl, exc_bind_ok]
  rw [show plookup pn_orig "zh" = Except.ok gzh from by
    unfold plookup; rw [hzh]; rfl, exc_bind_ok]
  rw [median_filter_df_ok _ _ _ _ _ hw, exc_bind_ok]
  rw [hthr]
  simp only [exc_pure, exc_bind_ok]
  rw [if_pos (show cp < (gtThresh g thr).nr from hcp)]
  rfl

/-- C6 counterexample: column 0 of the `zdr` working copy has first
bin 4 (above 3.5), second bin 1 (below 3.5), rest 0.  Since the first
bin exceeds the threshold and bin 20 does not, the whole column is
selected: the below-threshold cell at bin 1 is replaced by the
median-filtered value 0, so cells not exceeding the threshold are
replaced and do not keep their original value. -/
theorem fltr_ground_clutter_median_below_threshold_replaced_cex :
    gzC6.cell 1 0 = some 1 ∧ ¬ rat35 < 1 ∧
    ((fltr_ground_clutter_median pnC6 35 20 (22, 2)).toOption.bind
      (fun p => p.lookup "zdr")).map (fun gg => gg.cell 1 0) =
        some (some 0) := by
  refine ⟨rfl, by decide, ?_⟩
  decide

/-- C6 (amended): for ZDR and KDP, `fltr_ground_clutter_median`
replaces a cell of the lower-case working copy exactly when it lies in
the first `crop_px` bins, the column's bin-`crop_px` value does not
exceed the field threshold (ZDR 3.5, KDP 0.22), and either the
column's first-bin value or the cell's own value exceeds the
threshold; the replacement value is the corresponding cell of the
median-filtered first `heigth_px` bins (filled, with the `zh` null
mask re-applied), and every other cell — in particular everything
from bin `crop_px` on — keeps its original value. -/
theorem fltr_ground_clutter_median_spec (pn : Panel) (hp cp : Nat)
    (sz : Nat × Nat) (gz gk gzh : DF)
    (hzdr : pn.lookup "zdr" = some gz) (hkdp : pn.lookup "kdp" = some gk)
    (hzh : pn.lookup "zh" = some gzh)
    (hcpz : cp < gz.nr) (hcpk : cp < gk.nr) (hcphp : cp ≤ hp) :
    ∃ out, fltr_ground_clutter_median pn hp cp sz = Except.ok out ∧
      (∃ fz gout, median_filter_df (ilocHead hp gz) (some "zdr") true
          (some (isnull gzh)) sz = Except.ok fz ∧
        out.lookup "zdr" = some gout ∧
        gout.nr = gz.nr ∧ gout.nc = gz.nc ∧
        ∀ i j, i < gz.nr → j < gz.nc →
          gout.cell i j =
            if i < cp ∧ (gtThresh gz rat35).cell cp j = false ∧
                ((gtThresh gz rat35).cell 0 j = true ∨
                  (gtThresh gz rat35).cell i j = true)
            then fz.cell i j else gz.cell i j) ∧
      (∃ fk gout, median_filter_df (ilocHead hp gk) (some "kdp") true
          (some (isnull gzh)) sz = Except.ok fk ∧
        out.lookup "kdp" = some gout ∧
        gout.nr = gk.nr ∧ gout.nc = gk.nc ∧
        ∀ i j, i < gk.nr → j < gk.nc →
          gout.cell i j =
            if i < cp ∧ (gtThresh gk rat022).cell cp j = false ∧
                ((gtThresh gk rat022).cell 0 j = true ∨
                  (gtThresh gk rat022).cell i j = true)
            then fk.cell i j else gk.cell i j) := by
  have hrun1 := gcm_process_field_run pn pn hp cp sz "zdr" gz gzh rat35 (-1)
    hzdr hzh rfl rfl hcpz
  have hkdp2 : (pset pn "zdr"
      (assignWhere gz (gcmSelection (gtThresh gz rat35) cp)
        (ilocHead cp (gcmNewValues hp gz gzh sz (-1))))).lookup "kdp" =
      some gk := by
    rw [lookup_pset_ne _ _ _ _ (by decide)]
    exact hkdp
  have hrun2 := gcm_process_field_run pn _ hp cp sz "kdp" gk gzh rat022 0
    hkdp2 hzh rfl rfl hcpk
  have hall : fltr_ground_clutter_median pn hp cp sz =
      Except.ok (pset (pset pn "zdr"
        (assignWhere gz (gcmSelection (gtThresh gz rat35) cp)
          (ilocHead cp (gcmNewValues hp gz gzh sz (-1))))) "kdp"
        (assignWhere gk (gcmSelection (gtThresh gk rat022) cp)
          (ilocHead cp (gcmNewValues hp gk gzh sz 0)))) := by
    show (do
      let pn_new ← create_filtered_fields_if_missing pn ["zdr", "kdp"]
      List.foldlM (gcm_process_field pn hp cp sz) pn_new ["zdr", "kdp"]) = _
    rw [create_fields_noop_zdrkdp pn (by rw [hzdr]; rfl) (by rw [hkdp]; rfl),
      exc_bind_ok]
    simp only [List.foldlM]
    rw [hrun1, exc_bind_ok, hrun2, exc_bind_ok]
    rfl
  refine ⟨pset (pset pn "zdr"
      (assignWhere gz (gcmSelection (gtThresh gz rat35) cp)
        (ilocHead cp (gcmNewValues hp gz gzh sz (-1))))) "kdp"
      (assignWhere gk (gcmSelection (gtThresh gk rat022) cp)
        (ilocHead cp (gcmNewValues hp gk gzh sz 0))), hall,
    ⟨gcmNewValues hp gz gzh sz (-1),
      assignWhere gz (gcmSelection (gtThresh gz rat35) cp)
        (ilocHead cp (gcmNewValues hp gz gzh sz (-1))),
      median_filter_df_ok (ilocHead hp gz) "zdr" (isnull gzh) sz (-1) rfl,
      ?_, rfl, rfl, ?_⟩,
    ⟨gcmNewValues hp gk gzh sz 0,
      assignWhere gk (gcmSelection (gtThresh gk rat022) cp)
        (ilocHead cp (gcmNewValues hp gk gzh sz 0)),
      median_filter_df_ok (ilocHead hp gk) "kdp" (isnull gzh) sz 0 rfl,
      ?_, rfl, rfl, ?_⟩⟩
  · rw [lookup_pset_ne _ _ _ _ (by decide), lookup_pset_self]
  · intro i j hi hj
    exact assignWhere_gcm_cell gz _ cp hp i j rat35 hi hj hcphp rfl rfl
  · rw [lookup_pset_self]
  · intro i j hi hj
    exact assignWhere_gcm_cell gk _ cp hp i j rat022 hi hj hcphp rfl rfl

/-- C6 witness for the amended claim: 21x1 all-zero fields, default
bin parameters, window (1, 1). -/
theorem fltr_ground_clutter_median_spec_witness :
    ∃ out, fltr_ground_clutter_median pnC6w 35 20 (1, 1) = Except.ok out ∧
      (∃ fz gout, median_filter_df (ilocHead 35 g21) (some "zdr") true
          (some (isnull g21)) (1, 1) = Except.ok fz ∧
        out.lookup "zdr" = some gout ∧
        gout.nr = g21.nr ∧ gout.nc = g21.nc ∧
        ∀ i j, i < g21.nr → j < g21.nc →
          gout.cell i j =
            if i < 20 ∧ (gtThresh g21 rat35).cell 20 j = false ∧
                ((gtThresh g21 rat35).cell 0 j = true ∨
                  (gtThresh g21 rat35).cell i j = true)
            then fz.cell i j else g21.cell i j) ∧
      (∃ fk gout, median_filter_df (ilocHead 35 g21) (some "kdp") true
          (some (isnull g21)) (1, 1) = Except.ok fk ∧
        out.lookup "kdp" = some gout ∧
        gout.nr = g21.nr ∧ gout.nc = g21.nc ∧
        ∀ i j, i < g21.nr → j < g21.nc →
          gout.cell i j =
            if i < 20 ∧ (gtThresh g21 rat022).cell 20 j = false ∧
                ((gtThresh g21 rat022).cell 0 j = true ∨
                  (gtThresh g21 rat022).cell i j = true)
            then fk.cell i j else g21.cell i j) :=
  fltr_ground_clutter_median_spec pnC6w 35 20 (1, 1) g21 g21 g21
    rfl rfl rfl (by decide) (by decide) (by decide)

/-!
## Claim C9
-/

theorem exc_bind_isOk {ε α β : Type} (e : Except ε α) (f : α → Except ε β)
    (h : (e >>= f).isOk = true) :
    ∃ a, e = Except.ok a ∧ (f a).isOk = true := by
  cases e with
  | error err =>
    rw [exc_bind_error] at h
    exact absurd h (by simp [Except.isOk, Except.toBool])
  | ok a => exact ⟨a, rfl, by rwa [exc_bind_ok] at h⟩

theorem exc_isOk_exists {ε α : Type} (e : Except ε α)
    (h : e.isOk = true) : ∃ a, e = Except.ok a := by
  cases e with
  | error err => exact absurd h (by simp [Except.isOk, Except.toBool])
  | ok a => exact ⟨a, rfl⟩

theorem create_fold_preserve : ∀ (L : List String) (pn p2 : Panel),
    (L.foldlM (fun acc key =>
      if (acc.lookup (pyLower key)).isSome then pure acc
      else do
        let v ← plookup acc key
        pure (pset acc (pyLower key) v)) pn) = Except.ok p2 →
    ∀ k, (∀ key ∈ L, k ≠ pyLower key) → p2.lookup k = pn.lookup k := by
  intro L
  induction L with
  | nil =>
    intro pn p2 h k _
    simp only [List.foldlM] at h
    rw [show p2 = pn from (Except.ok.inj h).symm]
  | cons key L ih =>
    intro pn p2 h k hk
    simp only [List.foldlM] at h
    by_cases hc : (pn.lookup (pyLower key)).isSome = true
    · rw [if_pos hc, exc_pure, exc_bind_ok] at h
      exact ih pn p2 h k fun key2 hm => hk key2 (List.mem_cons_of_mem _ hm)
    · rw [if_neg hc] at h
      cases hv : pn.lookup key with
      | none =>
        rw [show plookup pn key = Except.error (RadErr.keyError key) from by
          unfold plookup; rw [hv]; rfl, exc_bind_error, exc_bind_error] at h
        exact absurd h (by simp)
      | some v =>
        rw [show plookup pn key = Except.ok v from by
          unfold plookup; rw [hv]; rfl, exc_bind_ok, exc_pure,
          exc_bind_ok] at h
        rw [ih _ _ h k fun key2 hm => hk key2 (List.mem_cons_of_mem _ hm)]
        exact lookup_pset_ne _ _ _ _ (hk key (List.mem_cons_self _ _))

theorem nonmet_fold_frame (cond : BF) : ∀ (fields : List String)
    (pnc out : Panel),
    (fields.foldlM (fun acc field => do
      let cur ← plookup acc (pyLower field)
      pure (pset acc (pyLower field) (maskCond cur cond))) pnc) =
        Except.ok out →
    ((∀ k, (∀ f ∈ fields, k ≠ pyLower f) → out.lookup k = pnc.lookup k) ∧
     (∀ k, (pnc.lookup k).isSome = true → (out.lookup k).isSome = true) ∧
     (∀ f ∈ fields, (out.lookup (pyLower f)).isSome = true)) := by
  intro fields
  induction fields with
  | nil =>
    intro pnc out h
    have hpo : pnc = out := by
      exact Except.ok.inj h
    subst hpo
    exact ⟨fun _ _ => rfl, fun _ hs => hs, fun f hf => absurd hf (by simp)⟩
  | cons f fields ih =>
    intro pnc out h
    simp only [List.foldlM] at h
    cases hl : pnc.lookup (pyLower f) with
    | none =>
      rw [show plookup pnc (pyLower f) =
          Except.error (RadErr.keyError (pyLower f)) from by
        unfold plookup; rw [hl]; rfl, exc_bind_error, exc_bind_error] at h
      exact absurd h (by simp)
    | some cur =>
      rw [show plookup pnc (pyLower f) = Except.ok cur from by
        unfold plookup; rw [hl]; rfl, exc_bind_ok, exc_pure,
        exc_bind_ok] at h
      obtain ⟨ih1, ih2, ih3⟩ := ih _ _ h
      refine ⟨?_, ?_, ?_⟩
      · intro k hk
        rw [ih1 k fun f2 hf2 => hk f2 (List.mem_cons_of_mem _ hf2)]
        exact lookup_pset_ne _ _ _ _ (hk f (List.mem_cons_self _ _))
      · intro k hks
        exact ih2 k (lookup_pset_isSome _ _ _ _ hks)
      · intro f2 hf2
        rcases List.mem_cons.mp hf2 with rfl | hf3
        · exact ih2 _ (by rw [lookup_pset_self]; rfl)
        · exact ih3 f2 hf3

theorem gcm_step_shape (pn_orig : Panel) (hp cp : Nat) (sz : Nat × Nat)
    (acc : Panel) (field : String) (p2 : Panel)
    (h : gcm_process_field pn_orig hp cp sz acc field = Except.ok p2) :
    ∃ g2, p2 = pset acc field g2 := by
  unfold gcm_process_field at h
  cases h1 : acc.lookup field with
  | none =>
    rw [show plookup acc field = Except.error (RadErr.keyError field) from by
      unfold plookup; rw [h1]; rfl, exc_bind_error] at h
    exact absurd h (by simp)
  | some g =>
    rw [show plookup acc field = Except.ok g from by
      unfold plookup; rw [h1]; rfl, exc_bind_ok] at h
    cases h2 : pn_orig.lookup "zh" with
    | none =>
      rw [show plookup pn_orig "zh" = Except.error (RadErr.keyError "zh") from
        by unfold plookup; rw [h2]; rfl, exc_bind_error] at h
      exact absurd h (by simp)
    | some gzh =>
      rw [show plookup pn_orig "zh" = Except.ok gzh from by
        unfold plookup; rw [h2]; rfl, exc_bind_ok] at h
      cases h3 : median_filter_df (ilocHead hp g) (some field) true
          (some (isnull gzh)) sz with
      | error e =>
        rw [h3, exc_bind_error] at h
        exact absurd h (by simp)
      | ok fz =>
        rw [h3, exc_bind_ok] at h
        cases h4 : ground_threshold.lookup (pyUpper field) with
        | none =>
          rw [h4] at h
          simp only [exc_throw, exc_bind_error] at h
          exact absurd h (by simp)
        | some thr =>
          rw [h4] at h
          simp only [exc_pure, exc_bind_ok] at h
          by_cases h5 : cp < (gtThresh g thr).nr
          · rw [if_pos h5] at h
            exact ⟨_, (Except.ok.inj h).symm⟩
          · rw [if_neg h5] at h
            simp only [exc_throw] at h
            exact absurd h (by simp)

theorem gcm_fold_frame (pn_orig : Panel) (hp cp : Nat) (sz : Nat × Nat) :
    ∀ (fields : List String) (pnc out : Panel),
    (fields.foldlM (gcm_process_field pn_orig hp cp sz) pnc) =
      Except.ok out →
    ((∀ k, k ∉ fields → out.lookup k = pnc.lookup k) ∧
     (∀ k, (pnc.lookup k).isSome = true → (out.lookup k).isSome = true) ∧
     (∀ f ∈ fields, (out.lookup f).isSome = true)) := by
  intro fields
  induction fields with
  | nil =>
    intro pnc out h
    have hpo : pnc = out := Except.ok.inj h
    subst hpo
    exact ⟨fun _ _ => rfl, fun _ hs => hs, fun f hf => absurd hf (by simp)⟩
  | cons f fields ih =>
    intro pnc out h
    simp only [List.foldlM] at h
    cases hs : gcm_process_field pn_orig hp cp sz pnc f with
    | error e =>
      rw [hs, exc_bind_error] at h
      exact absurd h (by simp)
    | ok p2 =>
      rw [hs, exc_bind_ok] at h
      obtain ⟨g2, rfl⟩ := gcm_step_shape pn_orig hp cp sz pnc f p2 hs
      obtain ⟨ih1, ih2, ih3⟩ := ih _ _ h
      refine ⟨?_, ?_, ?_⟩
      · intro k hk
        have hk1 : k ≠ f := fun he => hk (he ▸ List.mem_cons_self _ _)
        have hk2 : k ∉ fields := fun hm => hk (List.mem_cons_of_mem _ hm)
        rw [ih1 k hk2]
        exact lookup_pset_ne _ _ _ _ hk1
      · intro k hks
        exact ih2 k (lookup_pset_isSome _ _ _ _ hks)
      · intro f2 hf2
        rcases List.mem_cons.mp hf2 with rfl | hf3
        · exact ih2 _ (by rw [lookup_pset_self]; rfl)
        · exact ih3 f2 hf3

/-- C9: both rejection policies touch only the lower-case working
copies: every key other than the lower-case selected field names maps
to the very same frame as in the input panel (so the upper-case
originals are identical), and the lower-case copies exist in the
result (auto-created from the upper-case fields when absent). -/
theorem rejection_policies_frame_effect :
    (∀ (pn : Panel) (rholim : ℚ),
      (fltr_nonmet pn ["ZH", "ZDR", "KDP"] rholim).isOk = true →
      (∀ k, k ≠ "zh" → k ≠ "zdr" → k ≠ "kdp" →
        (fltr_nonmet pn ["ZH", "ZDR", "KDP"] rholim).toOption.bind
          (fun p => p.lookup k) = pn.lookup k) ∧
      (∀ f, f ∈ (["zh", "zdr", "kdp"] : List String) →
        ((fltr_nonmet pn ["ZH", "ZDR", "KDP"] rholim).toOption.bind
          (fun p => p.lookup f)).isSome = true)) ∧
    (∀ (pn : Panel) (hp cp : Nat) (sz : Nat × Nat),
      (fltr_ground_clutter_median pn hp cp sz).isOk = true →
      (∀ k, k ≠ "zdr" → k ≠ "kdp" →
        (fltr_ground_clutter_median pn hp cp sz).toOption.bind
          (fun p => p.lookup k) = pn.lookup k) ∧
      (∀ f, f ∈ (["zdr", "kdp"] : List String) →
        ((fltr_ground_clutter_median pn hp cp sz).toOption.bind
          (fun p => p.lookup f)).isSome = true)) := by
  constructor
  · intro pn rholim hok
    unfold fltr_nonmet at hok ⊢
    obtain ⟨pnc, hc, hok⟩ := exc_bind_isOk _ _ hok
    rw [hc, exc_bind_ok]
    obtain ⟨grho, hr, hok⟩ := exc_bind_isOk _ _ hok
    rw [hr, exc_bind_ok]
    obtain ⟨out, hf⟩ := exc_isOk_exists _ hok
    rw [hf]
    obtain ⟨hp1, _, hp3⟩ :=
      nonmet_fold_frame (rhoCond grho) ["ZH", "ZDR", "KDP"] pnc out hf
    have hcp := create_fold_preserve ["ZH", "ZDR", "KDP"] pn pnc hc
    constructor
    · intro k h1 h2 h3
      show out.lookup k = pn.lookup k
      rw [hp1 k ?_, hcp k ?_]
      · intro key hkey
        simp only [List.mem_cons, List.not_mem_nil, or_false] at hkey
        rcases hkey with rfl | rfl | rfl
        · exact h1
        · exact h2
        · exact h3
      · intro key hkey
        simp only [List.mem_cons, List.not_mem_nil, or_false] at hkey
        rcases hkey with rfl | rfl | rfl
        · exact h1
        · exact h2
        · exact h3
    · intro f hfm
      show (out.lookup f).isSome = true
      simp only [List.mem_cons, List.not_mem_nil, or_false] at hfm
      rcases hfm with rfl | rfl | rfl
      · exact hp3 "ZH" (by simp)
      · exact hp3 "ZDR" (by simp)
      · exact hp3 "KDP" (by simp)
  · intro pn hp cp sz hok
    have heq : fltr_ground_clutter_median pn hp cp sz = (do
        let pn_new ← create_filtered_fields_if_missing pn ["zdr", "kdp"]
        List.foldlM (gcm_process_field pn hp cp sz) pn_new ["zdr", "kdp"]) :=
      rfl
    rw [heq] at hok ⊢
    obtain ⟨pnc, hc, hok⟩ := exc_bind_isOk _ _ hok
    rw [hc, exc_bind_ok]
    obtain ⟨out, hf⟩ := exc_isOk_exists _ hok
    rw [hf]
    obtain ⟨hp1, _, hp3⟩ :=
      gcm_fold_frame pn hp cp sz ["zdr", "kdp"] pnc out hf
    have hcp := create_fold_preserve ["ZDR", "KDP"] pn pnc hc
    constructor
    · intro k h1 h2
      show out.lookup k = pn.lookup k
      rw [hp1 k ?_, hcp k ?_]
      · intro key hkey
        simp only [List.mem_cons, List.not_mem_nil, or_false] at hkey
        rcases hkey with rfl | rfl
        · exact h1
        · exact h2
      · intro hm
        simp only [List.mem_cons, List.not_mem_nil, or_false] at hm
        rcases hm with rfl | rfl
        · exact h1 rfl
        · exact h2 rfl
    · intro f hfm
      show (out.lookup f).isSome = true
      simp only [List.mem_cons, List.not_mem_nil, or_false] at hfm
      rcases hfm with rfl | rfl
      · exact hp3 "zdr" (by simp)
      · exact hp3 "kdp" (by simp)

/-- C9 witness: both policies applied to a concrete panel; the
upper-case originals come back identical and the lower-case copies
exist. -/
theorem rejection_policies_frame_effect_witness :
    ((fltr_nonmet pnC9 ["ZH", "ZDR", "KDP"] 0).isOk = true) ∧
    ((fltr_ground_clutter_median pnC9 35 20 (1, 1)).isOk = true) ∧
    ((fltr_nonmet pnC9 ["ZH", "ZDR", "KDP"] 0).toOption.bind
      (fun p => p.lookup "ZH") = pnC9.lookup "ZH") ∧
    ((fltr_ground_clutter_median pnC9 35 20 (1, 1)).toOption.bind
      (fun p => p.lookup "ZDR") = pnC9.lookup "ZDR") ∧
    (((fltr_ground_clutter_median pnC9 35 20 (1, 1)).toOption.bind
      (fun p => p.lookup "zdr")).isSome = true) :=
  ⟨by decide, by decide,
    (rejection_policies_frame_effect.1 pnC9 0 (by decide)).1 "ZH"
      (by decide) (by decide) (by decide),
    (rejection_policies_frame_effect.2 pnC9 35 20 (1, 1) (by decide)).1 "ZDR"
      (by decide) (by decide),
    (rejection_policies_frame_effect.2 pnC9 35 20 (1, 1) (by decide)).2 "zdr"
      (by decide)⟩

end Radproc
